import Mathlib

/-!
Verification development for the event-routing and reliability core of the
order / inventory / notification microservice platform.

The TypeScript sources are shallowly embedded: JSON values become an
inductive `Json`, the zod schemas become executable parsers, the repository
and controller functions become pure state-passing functions, and the
message-bus consume loop becomes a function from a delivered message to the
list of channel actions it performs.  Nondeterministic inputs of the real
code (random UUIDs, wall-clock timestamps) are passed in explicitly through
small `Env` structures.
-/

namespace MicroCore

/-- JSON values as delivered to the consumers after `JSON.parse` and as held
in the Mongo documents.  Numbers are modelled as rationals (`Rat`), which
captures every literal the services construct and every bound the schemas
check (`int`, `positive`). Objects are association lists; lookup takes the
first binding of a key. -/
inductive Json where
  | null : Json
  | bool (b : Bool) : Json
  | num (q : Rat) : Json
  | str (s : String) : Json
  | arr (elems : List Json) : Json
  | obj (fields : List (String × Json)) : Json
deriving Repr

namespace Json

/-- First binding of key `k` in an object; `none` on other constructors. -/
def getField : Json → String → Option Json
  | obj fields, k => fields.lookup k
  | _, _ => none

def asString : Json → Option String
  | str s => some s
  | _ => none

def asNum : Json → Option Rat
  | num q => some q
  | _ => none

def asArr : Json → Option (List Json)
  | arr xs => some xs
  | _ => none

end Json

/-- One hexadecimal digit, case-insensitive (models the character class of
the zod `z.string().uuid()` check). -/
def isHexDigit (c : Char) : Bool :=
  (('0' ≤ c && c ≤ '9') || ('a' ≤ c && c ≤ 'f') || ('A' ≤ c && c ≤ 'F'))

/-- Models `z.string().uuid()`: the canonical 8-4-4-4-12 hyphenated
hexadecimal shape (the format produced by `crypto.randomUUID()`). -/
def isUuidFormat (s : String) : Bool :=
  let cs := s.data
  cs.length = 36 &&
  (List.range 36).all (fun i =>
    match cs.get? i with
    | none => false
    | some c =>
      if i = 8 || i = 13 || i = 18 || i = 23 then c = '-' else isHexDigit c)

/-- The event envelope as stored in the `events` collections and carried on
the wire (`EventEnvelope` in `repositories/eventsRepo.ts`).  The payload is
kept as raw JSON, mirroring `payload: Record<string, any>`. -/
structure EventEnvelope where
  eventId : String
  type : String
  version : Int
  occurredAt : String
  producer : String
  correlationId : String
  payload : Json
deriving Repr

/-- `payload.orderId` as read by Mongo queries and the replay tool. -/
def EventEnvelope.payloadOrderId (e : EventEnvelope) : Option String :=
  (e.payload.getField "orderId").bind Json.asString

/-! ### zod schemas (events/schemas/common.ts, orders.ts, inventory.ts, notification.ts) -/

/-- One order item as validated by `OrderItemSchema`
(`productId: z.string().min(1)`, `quantity: z.number().int().positive()`,
`unitPrice: z.number().positive()`).  The quantity is stored as the integer
it was checked to be. -/
structure OrderItem where
  productId : String
  quantity : Int
  unitPrice : Rat
deriving Repr, DecidableEq

/-- Parse a JSON value against `OrderItemSchema`: extract the three fields
structurally, then apply the refinements (`min(1)`, `int`, `positive`);
`safeParse` succeeds exactly when all pass. -/
def parseOrderItem (j : Json) : Option OrderItem :=
  match (j.getField "productId").bind Json.asString,
        (j.getField "quantity").bind Json.asNum,
        (j.getField "unitPrice").bind Json.asNum with
  | some pid, some q, some up =>
    if decide (1 ≤ pid.length) && (q.den == 1) && decide (0 < q.num) &&
       decide (0 < up)
    then some { productId := pid, quantity := q.num, unitPrice := up }
    else none
  | _, _, _ => none

/-- Parse every element of `items`, requiring all to pass
(`z.array(OrderItemSchema)`). -/
def parseItems : List Json → Option (List OrderItem)
  | [] => some []
  | j :: rest =>
    match parseOrderItem j, parseItems rest with
    | some it, some tl => some (it :: tl)
    | _, _ => none

/-- The base envelope fields after a successful `EventEnvelopeBaseV1` check
(`eventId` uuid, `version` literal `1`, all other strings `min(1)`);
`type` and `version` are fixed by the extending schema and omitted here. -/
structure BaseFields where
  eventId : String
  occurredAt : String
  producer : String
  correlationId : String
deriving Repr, DecidableEq

/-- Structural extraction plus the `EventEnvelopeBaseV1` checks, except the
`type` literal which each concrete schema pins separately. -/
def parseBase (j : Json) (typeLit : String) : Option BaseFields :=
  match (j.getField "eventId").bind Json.asString,
        (j.getField "type").bind Json.asString,
        (j.getField "version").bind Json.asNum,
        (j.getField "occurredAt").bind Json.asString,
        (j.getField "producer").bind Json.asString,
        (j.getField "correlationId").bind Json.asString with
  | some eid, some ty, some v, some occ, some prod, some corr =>
    if isUuidFormat eid && (ty == typeLit) && (v == 1) &&
       decide (1 ≤ occ.length) && decide (1 ≤ prod.length) &&
       decide (1 ≤ corr.length)
    then some { eventId := eid, occurredAt := occ, producer := prod,
                correlationId := corr }
    else none
  | _, _, _, _, _, _ => none

/-- Payload of `orders.created` v1 after validation. -/
structure CreatedPayload where
  orderId : String
  customerId : String
  items : List OrderItem
  total : Rat
deriving Repr, DecidableEq

/-- A validated `orders.created` v1 message (result of
`OrdersCreatedV1Schema.safeParse` succeeding). -/
structure OrdersCreatedMsg where
  base : BaseFields
  payload : CreatedPayload
deriving Repr, DecidableEq

/-- `OrdersCreatedV1Schema.safeParse` on a JSON value. -/
def parseOrdersCreatedV1 (j : Json) : Option OrdersCreatedMsg :=
  match parseBase j "orders.created", j.getField "payload" with
  | some base, some p =>
    match (p.getField "orderId").bind Json.asString,
          (p.getField "customerId").bind Json.asString,
          ((p.getField "items").bind Json.asArr).bind parseItems,
          (p.getField "total").bind Json.asNum with
    | some oid, some cid, some items, some total =>
      if decide (1 ≤ oid.length) && decide (1 ≤ cid.length) &&
         decide (1 ≤ items.length) && decide (0 < total)
      then some { base, payload := { orderId := oid, customerId := cid, items, total } }
      else none
    | _, _, _, _ => none
  | _, _ => none

/-- Payload of `orders.cancelled` v1 after validation. -/
structure CancelledPayload where
  orderId : String
  reason : String
deriving Repr, DecidableEq

structure OrdersCancelledMsg where
  base : BaseFields
  payload : CancelledPayload
deriving Repr, DecidableEq

/-- `OrdersCancelledV1Schema.safeParse` on a JSON value. -/
def parseOrdersCancelledV1 (j : Json) : Option OrdersCancelledMsg :=
  match parseBase j "orders.cancelled", j.getField "payload" with
  | some base, some p =>
    match (p.getField "orderId").bind Json.asString,
          (p.getField "reason").bind Json.asString with
    | some oid, some reason =>
      if decide (1 ≤ oid.length) && decide (1 ≤ reason.length)
      then some { base, payload := { orderId := oid, reason } }
      else none
    | _, _ => none
  | _, _ => none

/-- Payload of `inventory.reserve.approved` v1 after validation. -/
structure ApprovedPayload where
  orderId : String
  reservationId : String
deriving Repr, DecidableEq

structure InvApprovedMsg where
  base : BaseFields
  payload : ApprovedPayload
deriving Repr, DecidableEq

/-- `InventoryReserveApprovedV1Schema.safeParse` on a JSON value. -/
def parseInvApprovedV1 (j : Json) : Option InvApprovedMsg :=
  match parseBase j "inventory.reserve.approved", j.getField "payload" with
  | some base, some p =>
    match (p.getField "orderId").bind Json.asString,
          (p.getField "reservationId").bind Json.asString with
    | some oid, some rid =>
      if decide (1 ≤ oid.length) && decide (1 ≤ rid.length)
      then some { base, payload := { orderId := oid, reservationId := rid } }
      else none
    | _, _ => none
  | _, _ => none

/-- Payload of `inventory.reserve.rejected` v1 after validation. -/
structure RejectedPayload where
  orderId : String
  reason : String
deriving Repr, DecidableEq

structure InvRejectedMsg where
  base : BaseFields
  payload : RejectedPayload
deriving Repr, DecidableEq

/-- `InventoryReserveRejectedV1Schema.safeParse` on a JSON value. -/
def parseInvRejectedV1 (j : Json) : Option InvRejectedMsg :=
  match parseBase j "inventory.reserve.rejected", j.getField "payload" with
  | some base, some p =>
    match (p.getField "orderId").bind Json.asString,
          (p.getField "reason").bind Json.asString with
    | some oid, some reason =>
      if decide (1 ≤ oid.length) && decide (1 ≤ reason.length)
      then some { base, payload := { orderId := oid, reason } }
      else none
    | _, _ => none
  | _, _ => none

/-! ### Re-encoding validated messages into stored envelopes -/

def encodeItem (it : OrderItem) : Json :=
  Json.obj [("productId", Json.str it.productId),
            ("quantity", Json.num it.quantity),
            ("unitPrice", Json.num it.unitPrice)]

def encodeCreatedPayload (p : CreatedPayload) : Json :=
  Json.obj [("orderId", Json.str p.orderId),
            ("customerId", Json.str p.customerId),
            ("items", Json.arr (p.items.map encodeItem)),
            ("total", Json.num p.total)]

def OrdersCreatedMsg.toEnvelope (m : OrdersCreatedMsg) : EventEnvelope :=
  { eventId := m.base.eventId, type := "orders.created", version := 1,
    occurredAt := m.base.occurredAt, producer := m.base.producer,
    correlationId := m.base.correlationId,
    payload := encodeCreatedPayload m.payload }

def OrdersCancelledMsg.toEnvelope (m : OrdersCancelledMsg) : EventEnvelope :=
  { eventId := m.base.eventId, type := "orders.cancelled", version := 1,
    occurredAt := m.base.occurredAt, producer := m.base.producer,
    correlationId := m.base.correlationId,
    payload := Json.obj [("orderId", Json.str m.payload.orderId),
                         ("reason", Json.str m.payload.reason)] }

def InvApprovedMsg.toEnvelope (m : InvApprovedMsg) : EventEnvelope :=
  { eventId := m.base.eventId, type := "inventory.reserve.approved", version := 1,
    occurredAt := m.base.occurredAt, producer := m.base.producer,
    correlationId := m.base.correlationId,
    payload := Json.obj [("orderId", Json.str m.payload.orderId),
                         ("reservationId", Json.str m.payload.reservationId)] }

def InvRejectedMsg.toEnvelope (m : InvRejectedMsg) : EventEnvelope :=
  { eventId := m.base.eventId, type := "inventory.reserve.rejected", version := 1,
    occurredAt := m.base.occurredAt, producer := m.base.producer,
    correlationId := m.base.correlationId,
    payload := Json.obj [("orderId", Json.str m.payload.orderId),
                         ("reason", Json.str m.payload.reason)] }

end MicroCore

namespace MicroCore

/-! ### Message bus (mq/bus.ts) -/

/-- The AMQP message headers the services read and write.  Absent headers
are `none`. -/
structure Headers where
  xAttempt : Option Nat := none
  xCorrelation : Option String := none
  xGroup : Option String := none
  xReplay : Option Bool := none
deriving Repr, DecidableEq

/-- A message as delivered to a consumer.  `parsed` is the outcome of
`JSON.parse(msg.content.toString())` (`none` models a parse exception);
`raw` stands for the raw `msg.content` bytes, which retry/DLQ republish
verbatim. -/
structure Delivery where
  raw : String
  parsed : Option Json
  headers : Headers
deriving Repr

/-- `const attempts = (headers['x-attempt'] as number) || 0`. -/
def Delivery.attempts (d : Delivery) : Nat := d.headers.xAttempt.getD 0

/-- Body of a channel publish: raw bytes (retry/DLQ republish) or a
JSON-serialised envelope (`Buffer.from(JSON.stringify(event))`). -/
inductive MqBody where
  | raw (s : String)
  | env (e : EventEnvelope)
deriving Repr

structure PublishAction where
  exchange : String
  routingKey : String
  body : MqBody
  headers : Headers
deriving Repr

/-- An action performed on the channel while handling one delivery. -/
inductive MqAction where
  | publish (p : PublishAction)
  | ack
deriving Repr

/-- The `retry()` helper of `MessageBus.consume`: increment the attempt
counter; past `maxRetries` republish the raw content to `queue.dlq`,
otherwise to `queue.retry`, with the incremented `x-attempt` header; ack
either way. -/
def retryActions (queue : String) (maxRetries : Nat) (d : Delivery) : List MqAction :=
  let nextAttempt := d.attempts + 1
  if nextAttempt > maxRetries then
    [.publish { exchange := "", routingKey := queue ++ ".dlq", body := .raw d.raw,
                headers := { d.headers with xAttempt := some nextAttempt } },
     .ack]
  else
    [.publish { exchange := "", routingKey := queue ++ ".retry", body := .raw d.raw,
                headers := { d.headers with xAttempt := some nextAttempt } },
     .ack]

/-- The `dlq()` helper: republish the raw content to `queue.dlq` with the
original headers and ack. -/
def dlqActions (queue : String) (d : Delivery) : List MqAction :=
  [.publish { exchange := "", routingKey := queue ++ ".dlq", body := .raw d.raw,
              headers := d.headers },
   .ack]

/-- What a handler asked the runtime to do with the delivery. -/
inductive Decision where
  | ack
  | retryD
  | dlq
deriving Repr, DecidableEq

/-- Result of running one (pure-modelled) handler: the event store it left
behind, the exchange publishes it performed, and its ack/retry/dlq
decision. -/
structure HandlerResult where
  store : List EventEnvelope
  published : List PublishAction
  decision : Decision
deriving Repr

def decisionActions (queue : String) (maxRetries : Nat) (d : Delivery) :
    Decision → List MqAction
  | .ack => [.ack]
  | .retryD => retryActions queue maxRetries d
  | .dlq => dlqActions queue d

/-- One turn of the `MessageBus.consume` loop for a delivery: a JSON parse
failure is caught and treated as `retry()`; otherwise the handler runs and
its decision is enacted.  Returns the resulting store and the channel
actions in order (handler publishes first, then the decision's actions). -/
def busConsumeStep (queue : String) (maxRetries : Nat)
    (handler : Json → HandlerResult) (store : List EventEnvelope)
    (d : Delivery) : List EventEnvelope × List MqAction :=
  match d.parsed with
  | none => (store, retryActions queue maxRetries d)
  | some j =>
    let r := handler j
    (r.store, r.published.map .publish ++ decisionActions queue maxRetries d r.decision)

/-- Iterated always-failing consumption (`fuel` bounds the recursion): the
delivery at attempt `a` goes through `retry()`; a republish to
`queue.retry` is redelivered by the broker with the incremented header, a
republish to `queue.dlq` is terminal.  Returns the `(routingKey, x-attempt)`
pairs of the successive republishes. -/
def alwaysFailTrace (queue : String) (maxRetries : Nat) :
    Nat → Nat → List (String × Nat)
  | 0, _ => []
  | fuel + 1, a =>
    let nextAttempt := a + 1
    if nextAttempt > maxRetries then [(queue ++ ".dlq", nextAttempt)]
    else (queue ++ ".retry", nextAttempt) :: alwaysFailTrace queue maxRetries fuel nextAttempt

/-! ### Event store (repositories/eventsRepo.ts) -/

/-- `EventsRepo.append`: insert the envelope; a duplicate-key error on the
unique `eventId` index is caught and treated as success (idempotent no-op).
The `Except` result mirrors the promise outcome: `.ok` resolves, `.error`
would be a rethrown non-duplicate database error (which the pure model
never produces). -/
def eventsAppend (store : List EventEnvelope) (e : EventEnvelope) :
    List EventEnvelope × Except String Unit :=
  if store.any (fun r => r.eventId = e.eventId) then (store, .ok ())
  else (store ++ [e], .ok ())

/-- Rows of the store holding a given `eventId`. -/
def countEventId (store : List EventEnvelope) (eid : String) : Nat :=
  (store.filter (fun r => r.eventId = eid)).length

/-! ### Circuit breaker (utils/breaker.ts) -/

structure BreakerOptions where
  timeout : Nat
  resetTimeout : Nat
  errorThresholdPercentage : Nat
  volumeThreshold : Nat
deriving Repr, DecidableEq

/-- Minimal state of an opossum breaker: whether it is open, plus the
rolling failure statistics it accumulates over its lifetime. -/
structure BreakerState where
  isOpen : Bool
  failures : Nat
  total : Nat
deriving Repr, DecidableEq

/-- A fresh `new CircuitBreaker(action, options)` starts closed with empty
statistics (opossum opens a breaker only in reaction to observed calls). -/
def newBreaker (_opts : BreakerOptions) : BreakerState :=
  { isOpen := false, failures := 0, total := 0 }

/-- Outcome of the wrapped asynchronous action. -/
inductive CallOutcome where
  | success
  | failure
deriving Repr, DecidableEq

/-- `breaker.fire()`: when open, fail fast without running the action;
otherwise run the action, record the outcome, and open the breaker once the
volume threshold is reached and the failure percentage exceeds the error
threshold. Returns (state afterwards, whether the wrapped action was
actually executed, outcome surfaced to the caller). -/
def breakerFire (opts : BreakerOptions) (b : BreakerState) (out : CallOutcome) :
    BreakerState × Bool × CallOutcome :=
  if b.isOpen then (b, false, .failure)
  else
    let failures := b.failures + (if out = .failure then 1 else 0)
    let total := b.total + 1
    let isOpen :=
      total ≥ opts.volumeThreshold && failures * 100 > opts.errorThresholdPercentage * total
    ({ isOpen, failures, total }, true, out)

/-- `executeWithBreaker` (utils/breaker.ts): when disabled, run the action
directly; when enabled, construct a **fresh** breaker, fire it once, and
discard it (`breaker.close()` in the `finally`).  No breaker state survives
the call.  Returns whether the underlying action was executed and the
surfaced outcome. -/
def executeWithBreaker (opts : BreakerOptions) (enabled : Bool)
    (out : CallOutcome) : Bool × CallOutcome :=
  if !enabled then (true, out)
  else
    let b := newBreaker opts
    let r := breakerFire opts b out
    (r.2.1, r.2.2)

/-- A sequence of calls through `executeWithBreaker`: each element is the
outcome the underlying I/O action would produce; the result records, per
call, whether the action was actually executed. -/
def breakerCallSeq (opts : BreakerOptions) (enabled : Bool)
    (outs : List CallOutcome) : List (Bool × CallOutcome) :=
  outs.map (fun o => executeWithBreaker opts enabled o)

/-- The breaker defaults documented for the services
(`MQ_BREAKER_ERROR_THRESHOLD_PERCENT=50`, `MQ_BREAKER_VOLUME_THRESHOLD=5`). -/
def defaultBreakerOptions : BreakerOptions :=
  { timeout := 3000, resetTimeout := 10000,
    errorThresholdPercentage := 50, volumeThreshold := 5 }

end MicroCore

namespace MicroCore

/-! ### Inventory service: `order.created.q` handler (inventory index.ts) -/

/-- JavaScript `a || b` on strings: the empty string is falsy. -/
def jsOrStr (s d : String) : String := if s = "" then d else s

/-- JavaScript `a || b` where `a` may be `undefined`. -/
def jsOrOpt (o : Option String) (d : String) : String :=
  match o with
  | some s => jsOrStr s d
  | none => d

/-- `String.prototype.trim()`: strip leading and trailing whitespace
(structurally recursive so that concrete runs evaluate). -/
def jsTrim (s : String) : String :=
  String.mk
    (((s.data.dropWhile Char.isWhitespace).reverse.dropWhile
        Char.isWhitespace).reverse)

/-- Serialise an envelope back to the JSON object the services construct
(used to re-run `safeParse` on outgoing events exactly as the code does). -/
def encodeEnvelope (e : EventEnvelope) : Json :=
  Json.obj [("eventId", Json.str e.eventId),
            ("type", Json.str e.type),
            ("version", Json.num e.version),
            ("occurredAt", Json.str e.occurredAt),
            ("producer", Json.str e.producer),
            ("correlationId", Json.str e.correlationId),
            ("payload", e.payload)]

/-- The nondeterministic inputs of one run of the inventory
`order.created.q` handler: the `randomUUID()` for the outgoing `eventId`,
the `new Date().toISOString()` timestamp, the `randomUUID()` whose first 8
characters name the reservation, and the `randomUUID()` used as the last
correlation fallback. -/
structure InvEnv where
  outEventId : String
  nowIso : String
  resUuid : String
  corrFallbackUuid : String
deriving Repr

/-- The inventory `order.created.q` handler body: schema-invalid input goes
straight to DLQ; otherwise the incoming event is appended, the reservation
rule `approved = totalQty > 0 && totalQty <= 10` decides the outgoing event
type, the outgoing envelope is validated by `safeParse` before publishing
(skip-publish + ack when invalid), then published to the `inventory`
exchange and appended. -/
def inventoryOrderCreatedHandler (env : InvEnv) (serviceName : String)
    (hdrCorr : Option String) (store : List EventEnvelope) (j : Json) :
    HandlerResult :=
  match parseOrdersCreatedV1 j with
  | none => { store, published := [], decision := .dlq }
  | some evt =>
    let store1 := (eventsAppend store evt.toEnvelope).1
    let orderId := evt.payload.orderId
    let totalQty : Int := evt.payload.items.foldl (fun s it => s + it.quantity) 0
    let approved := totalQty > 0 && totalQty ≤ 10
    let route := if approved then "inventory.reserve.approved.v1"
                 else "inventory.reserve.rejected.v1"
    let corr := jsOrStr evt.base.correlationId
      (jsOrOpt hdrCorr (jsOrStr orderId env.corrFallbackUuid))
    let outBase : BaseFields :=
      { eventId := env.outEventId, occurredAt := env.nowIso,
        producer := serviceName, correlationId := corr }
    let outEnv : EventEnvelope :=
      if approved then
        (InvApprovedMsg.mk outBase
          { orderId, reservationId := "res_" ++ env.resUuid.take 8 }).toEnvelope
      else
        (InvRejectedMsg.mk outBase
          { orderId, reason := "insufficient_stock" }).toEnvelope
    let outOk :=
      if approved then (parseInvApprovedV1 (encodeEnvelope outEnv)).isSome
      else (parseInvRejectedV1 (encodeEnvelope outEnv)).isSome
    if !outOk then { store := store1, published := [], decision := .ack }
    else
      let pub : PublishAction :=
        { exchange := "inventory", routingKey := route, body := .env outEnv,
          headers := { xGroup := some orderId,
                       xCorrelation := some outEnv.correlationId } }
      let store2 := (eventsAppend store1 outEnv).1
      { store := store2, published := [pub], decision := .ack }

/-- One delivery on `order.created.q` through the bus consume loop with the
inventory handler. -/
def inventoryConsumeStep (env : InvEnv) (serviceName : String)
    (maxRetries : Nat) (store : List EventEnvelope) (d : Delivery) :
    List EventEnvelope × List MqAction :=
  busConsumeStep "order.created.q" maxRetries
    (inventoryOrderCreatedHandler env serviceName d.headers.xCorrelation store)
    store d

end MicroCore

namespace MicroCore

/-! ### Order service read model (repositories/ordersRepo.ts) -/

inductive OrderStatus where
  | PENDING
  | CONFIRMED
  | REJECTED
  | CANCELLED
deriving Repr, DecidableEq

structure OrderDoc where
  orderId : String
  customerId : String
  items : List OrderItem
  total : Rat
  status : OrderStatus
  createdAt : String
  updatedAt : String
deriving Repr, DecidableEq

/-- `OrdersRepo.create`: `insertOne`, catching the duplicate-key error on
the unique `orderId` index by returning the existing row (idempotent
create).  Returns the new collection and the returned document. -/
def ordersCreate (orders : List OrderDoc) (doc : OrderDoc) :
    List OrderDoc × OrderDoc :=
  match orders.find? (fun o => o.orderId = doc.orderId) with
  | some existing => (orders, existing)
  | none => (orders ++ [doc], doc)

/-- `OrdersRepo.updateStatus`: `updateOne({orderId}, {$set: {status,
updatedAt}})` — updates the first matching document unconditionally (no
guard on the current status); matching nothing is a silent no-op. -/
def ordersUpdateStatus : List OrderDoc → String → OrderStatus → String →
    List OrderDoc
  | [], _, _, _ => []
  | o :: rest, oid, st, now =>
    if o.orderId = oid then { o with status := st, updatedAt := now } :: rest
    else o :: ordersUpdateStatus rest oid st now

/-- `OrdersRepo.getById`: `findOne({orderId})`. -/
def ordersGetById (orders : List OrderDoc) (oid : String) : Option OrderDoc :=
  orders.find? (fun o => o.orderId = oid)

/-! ### HTTP idempotency map (orders.controller.ts) -/

/-- `24 * 60 * 60 * 1000`. -/
def IDEMP_TTL_MS : Nat := 24 * 60 * 60 * 1000

structure IdempRec where
  orderId : String
  expiresAt : Nat
deriving Repr, DecidableEq

/-- `setIdemp`: `Map.set` — the new binding shadows any previous one. -/
def setIdemp (m : List (String × IdempRec)) (key orderId : String)
    (nowMs : Nat) : List (String × IdempRec) :=
  (key, { orderId, expiresAt := nowMs + IDEMP_TTL_MS }) ::
    m.filter (fun p => p.1 ≠ key)

/-- `getIdemp`: look the key up; an expired record is deleted and reported
as a miss.  Returns the looked-up orderId and the (possibly pruned) map. -/
def getIdemp (m : List (String × IdempRec)) (key : String) (nowMs : Nat) :
    Option String × List (String × IdempRec) :=
  match m.lookup key with
  | none => (none, m)
  | some rec =>
    if rec.expiresAt < nowMs then (none, m.filter (fun p => p.1 ≠ key))
    else (some rec.orderId, m)

/-! ### Order service controller (orders.controller.ts) -/

/-- Whole-service state touched by the order controller: the `orders`
collection, the `events` collection, the in-memory idempotency map, and the
log of broker publishes. -/
structure OrderState where
  orders : List OrderDoc
  events : List EventEnvelope
  idem : List (String × IdempRec)
  published : List PublishAction
deriving Repr

/-- The JSON body an HTTP response carries, reduced to the fields the
controller writes. -/
structure HttpResponse where
  status : Nat
  orderId : Option String := none
  orderStatus : Option OrderStatus := none
  idempotent : Bool := false
  error : Option String := none
deriving Repr, DecidableEq

/-- `CreateOrderSchema.safeParse(req.body)`. -/
def parseCreateOrderBody (j : Json) : Option (String × List OrderItem) :=
  match (j.getField "customerId").bind Json.asString,
        ((j.getField "items").bind Json.asArr).bind parseItems with
  | some cid, some items =>
    if decide (1 ≤ cid.length) && decide (1 ≤ items.length)
    then some (cid, items)
    else none
  | _, _ => none

/-- Nondeterministic inputs of one `createOrder` run: the `randomUUID()`
whose first 8 characters mint the orderId, the event `randomUUID()`, the
ISO timestamp, `Date.now()` as seen by the idempotency map, and the
`randomUUID()` of the correlation fallback. -/
structure CreateEnv where
  orderUuid : String
  eventId : String
  nowIso : String
  nowMs : Nat
  corrUuid : String
deriving Repr

/-- `POST /orders` (`createOrder`): validate the body; serve an idempotent
replay from the TTL map; otherwise mint the order, persist the read model,
construct and validate the `orders.created` envelope (500 and no publish on
failure), append it, publish it, record the idempotency mapping, and
respond 201. -/
def createOrder (s : OrderState) (env : CreateEnv) (body : Json)
    (idemKeyHdr : Option String) (corrHdr : Option String) :
    OrderState × HttpResponse :=
  match parseCreateOrderBody body with
  | none => (s, { status := 400, error := some "invalid_body" })
  | some (customerId, items) =>
    let idemKey := jsTrim (jsOrOpt idemKeyHdr "")
    let lookup := if idemKey ≠ "" then getIdemp s.idem idemKey env.nowMs
                  else (none, s.idem)
    match lookup.1 with
    | some existingOrderId =>
      let existing := ordersGetById s.orders existingOrderId
      ({ s with idem := lookup.2 },
       { status := 200, orderId := some existingOrderId,
         orderStatus := some ((existing.map OrderDoc.status).getD .PENDING),
         idempotent := true })
    | none =>
      let orderId := "ord_" ++ env.orderUuid.take 8
      let total := items.foldl (fun sum it => sum + (it.quantity : Rat) * it.unitPrice) 0
      let orderDoc : OrderDoc :=
        { orderId, customerId, items, total, status := .PENDING,
          createdAt := env.nowIso, updatedAt := env.nowIso }
      let orders1 := (ordersCreate s.orders orderDoc).1
      let correlationId := jsOrOpt corrHdr ("corr-" ++ env.corrUuid)
      let event : EventEnvelope :=
        { eventId := env.eventId, type := "orders.created", version := 1,
          occurredAt := env.nowIso, producer := "order-service", correlationId,
          payload := encodeCreatedPayload { orderId, customerId, items, total } }
      if !(parseOrdersCreatedV1 (encodeEnvelope event)).isSome then
        ({ s with orders := orders1, idem := lookup.2 },
         { status := 500, error := some "invalid_event_envelope" })
      else
        let events1 := (eventsAppend s.events event).1
        let pub : PublishAction :=
          { exchange := "orders", routingKey := "orders.created.v1",
            body := .env event,
            headers := { xGroup := some orderId, xCorrelation := some correlationId } }
        let idem1 := if idemKey ≠ "" then setIdemp lookup.2 idemKey orderId env.nowMs
                     else lookup.2
        ({ orders := orders1, events := events1, idem := idem1,
           published := s.published ++ [pub] },
         { status := 201, orderId := some orderId, orderStatus := some .PENDING })

/-- Nondeterministic inputs of one `cancelOrder` run; `updIso` is the
timestamp `OrdersRepo.updateStatus` takes internally. -/
structure CancelEnv where
  eventId : String
  nowIso : String
  updIso : String
  corrUuid : String
deriving Repr

/-- `(req.body && typeof req.body.reason === 'string' && req.body.reason.trim()) || 'user_request'`:
a present string field contributes its trimmed value unless blank. -/
def cancelReason (reasonField : Option String) : String :=
  match reasonField with
  | some r => jsOrStr (jsTrim r) "user_request"
  | none => "user_request"

/-- `POST /orders/:id/cancel` (`cancelOrder`): 400 on a blank id; otherwise
eagerly set the read model to CANCELLED, construct and validate the
`orders.cancelled` envelope (500 and no publish on failure), append it,
publish it, and respond 202. -/
def cancelOrder (s : OrderState) (env : CancelEnv) (idParam : String)
    (reasonField : Option String) (corrHdr : Option String) :
    OrderState × HttpResponse :=
  let orderId := jsTrim idParam
  if orderId = "" then (s, { status := 400, error := some "invalid_order_id" })
  else
    let reason := cancelReason reasonField
    let orders1 := ordersUpdateStatus s.orders orderId .CANCELLED env.updIso
    let correlationId := jsOrOpt corrHdr ("corr-" ++ env.corrUuid)
    let event : EventEnvelope :=
      { eventId := env.eventId, type := "orders.cancelled", version := 1,
        occurredAt := env.nowIso, producer := "order-service", correlationId,
        payload := Json.obj [("orderId", Json.str orderId),
                             ("reason", Json.str reason)] }
    if !(parseOrdersCancelledV1 (encodeEnvelope event)).isSome then
      ({ s with orders := orders1 },
       { status := 500, error := some "invalid_event_envelope" })
    else
      let events1 := (eventsAppend s.events event).1
      let pub : PublishAction :=
        { exchange := "orders", routingKey := "orders.cancelled.v1",
          body := .env event,
          headers := { xGroup := some orderId, xCorrelation := some correlationId } }
      ({ orders := orders1, events := events1, idem := s.idem,
         published := s.published ++ [pub] },
       { status := 202, orderId := some orderId, orderStatus := some .CANCELLED })

/-! ### Order service consumers (index.ts, `bindConsumers`) -/

/-- `inventory.reserve.approved.q` handler: validate (invalid → DLQ), set
the order status to CONFIRMED via the guard-free `updateStatus`, append the
event, ack.  Returns (orders, events, decision). -/
def orderHandleApproved (updIso : String) (orders : List OrderDoc)
    (events : List EventEnvelope) (j : Json) :
    List OrderDoc × List EventEnvelope × Decision :=
  match parseInvApprovedV1 j with
  | none => (orders, events, .dlq)
  | some evt =>
    let orders1 := ordersUpdateStatus orders evt.payload.orderId .CONFIRMED updIso
    let events1 := (eventsAppend events evt.toEnvelope).1
    (orders1, events1, .ack)

/-- `inventory.reserve.rejected.q` handler: same shape, status REJECTED. -/
def orderHandleRejected (updIso : String) (orders : List OrderDoc)
    (events : List EventEnvelope) (j : Json) :
    List OrderDoc × List EventEnvelope × Decision :=
  match parseInvRejectedV1 j with
  | none => (orders, events, .dlq)
  | some evt =>
    let orders1 := ordersUpdateStatus orders evt.payload.orderId .REJECTED updIso
    let events1 := (eventsAppend events evt.toEnvelope).1
    (orders1, events1, .ack)

end MicroCore

namespace MicroCore

/-! ### Notification service (notification index.ts) -/

/-- An ordered trace entry of what a notification handler does: a broker
publish or an event-store append. -/
inductive NotifAction where
  | publishN (p : PublishAction)
  | appendN (e : EventEnvelope)
deriving Repr

/-- Nondeterministic inputs of one notification handler run: the outgoing
`randomUUID()` event id, the timestamp, the `randomUUID()` correlation
fallback inside `publishNotification`, and the one inside the consumer. -/
structure NotifEnv where
  eventId : String
  nowIso : String
  pubCorrUuid : String
  hCorrUuid : String
deriving Repr

/-- `publishNotification`: construct the `notification.sent` envelope
(kind, orderId, `channel: 'log'`), publish it to the `notifications`
exchange with routing key `notification.sent.v1`, **then** append it to the
event store (append failures are swallowed).  No schema validation is run
on the outgoing envelope.  Returns the new store and the ordered actions. -/
def publishNotificationRun (env : NotifEnv) (serviceName kind orderId : String)
    (corr : Option String) (store : List EventEnvelope) :
    List EventEnvelope × List NotifAction :=
  let event : EventEnvelope :=
    { eventId := env.eventId, type := "notification.sent", version := 1,
      occurredAt := env.nowIso, producer := serviceName,
      correlationId := jsOrOpt corr ("corr-" ++ env.pubCorrUuid),
      payload := Json.obj [("orderId", Json.str orderId),
                           ("kind", Json.str kind),
                           ("channel", Json.str "log")] }
  let pub : PublishAction :=
    { exchange := "notifications", routingKey := "notification.sent.v1",
      body := .env event,
      headers := { xCorrelation := some event.correlationId,
                   xGroup := some orderId } }
  ((eventsAppend store event).1, [.publishN pub, .appendN event])

structure NotifOutcome where
  store : List EventEnvelope
  acts : List NotifAction
  decision : Decision
deriving Repr

/-- `orders.created.notification.q` handler: validate (invalid → DLQ),
append the incoming event, then `publishNotification('order_created', …)`,
ack. -/
def notifCreatedHandler (env : NotifEnv) (serviceName : String)
    (hdrCorr : Option String) (store : List EventEnvelope) (j : Json) :
    NotifOutcome :=
  match parseOrdersCreatedV1 j with
  | none => { store, acts := [], decision := .dlq }
  | some evt =>
    let store1 := (eventsAppend store evt.toEnvelope).1
    let corr := jsOrStr evt.base.correlationId
      (jsOrOpt hdrCorr ("corr-" ++ env.hCorrUuid))
    let run := publishNotificationRun env serviceName "order_created"
      evt.payload.orderId (some corr) store1
    { store := run.1, acts := .appendN evt.toEnvelope :: run.2, decision := .ack }

/-- `inventory.reserve.approved.notification.q` handler
(`kind = order_confirmed`). -/
def notifApprovedHandler (env : NotifEnv) (serviceName : String)
    (hdrCorr : Option String) (store : List EventEnvelope) (j : Json) :
    NotifOutcome :=
  match parseInvApprovedV1 j with
  | none => { store, acts := [], decision := .dlq }
  | some evt =>
    let store1 := (eventsAppend store evt.toEnvelope).1
    let corr := jsOrStr evt.base.correlationId
      (jsOrOpt hdrCorr ("corr-" ++ env.hCorrUuid))
    let run := publishNotificationRun env serviceName "order_confirmed"
      evt.payload.orderId (some corr) store1
    { store := run.1, acts := .appendN evt.toEnvelope :: run.2, decision := .ack }

/-- `inventory.reserve.rejected.notification.q` handler
(`kind = order_rejected`). -/
def notifRejectedHandler (env : NotifEnv) (serviceName : String)
    (hdrCorr : Option String) (store : List EventEnvelope) (j : Json) :
    NotifOutcome :=
  match parseInvRejectedV1 j with
  | none => { store, acts := [], decision := .dlq }
  | some evt =>
    let store1 := (eventsAppend store evt.toEnvelope).1
    let corr := jsOrStr evt.base.correlationId
      (jsOrOpt hdrCorr ("corr-" ++ env.hCorrUuid))
    let run := publishNotificationRun env serviceName "order_rejected"
      evt.payload.orderId (some corr) store1
    { store := run.1, acts := .appendN evt.toEnvelope :: run.2, decision := .ack }

/-- `orders.cancelled.notification.q` handler (`kind = order_cancelled`). -/
def notifCancelledHandler (env : NotifEnv) (serviceName : String)
    (hdrCorr : Option String) (store : List EventEnvelope) (j : Json) :
    NotifOutcome :=
  match parseOrdersCancelledV1 j with
  | none => { store, acts := [], decision := .dlq }
  | some evt =>
    let store1 := (eventsAppend store evt.toEnvelope).1
    let corr := jsOrStr evt.base.correlationId
      (jsOrOpt hdrCorr ("corr-" ++ env.hCorrUuid))
    let run := publishNotificationRun env serviceName "order_cancelled"
      evt.payload.orderId (some corr) store1
    { store := run.1, acts := .appendN evt.toEnvelope :: run.2, decision := .ack }

/-! ### Replay tool (scripts/replay.ts) -/

/-- The CLI filters `{type?, orderId?, from?, to?}`. -/
structure ReplayArgs where
  typeF : Option String := none
  orderIdF : Option String := none
  fromF : Option String := none
  toF : Option String := none
deriving Repr

/-- The Mongo query built by the replay tool: `type` equality,
`payload.orderId` equality, and the `occurredAt` `$gte`/`$lte` range
(string comparison on the ISO timestamps, as the script notes). -/
def matchesReplayQuery (a : ReplayArgs) (e : EventEnvelope) : Bool :=
  (match a.typeF with | some t => e.type = t | none => true) &&
  (match a.orderIdF with | some oid => e.payloadOrderId = some oid | none => true) &&
  (match a.fromF with | some f => decide (f ≤ e.occurredAt) | none => true) &&
  (match a.toF with | some t => decide (e.occurredAt ≤ t) | none => true)

/-- The cursor sort `{ occurredAt: 1, eventId: 1 }`. -/
def occEventLe (e1 e2 : EventEnvelope) : Bool :=
  decide (e1.occurredAt < e2.occurredAt) ||
  (e1.occurredAt = e2.occurredAt && decide (e1.eventId ≤ e2.eventId))

/-- `routingFor`: the static `type → (exchange, routingKey)` table; unknown
types map to `none`. -/
def routingFor (evtType : String) (version : Int) : Option (String × String) :=
  match evtType with
  | "orders.created" => some ("orders", "orders.created.v" ++ toString version)
  | "orders.cancelled" => some ("orders", "orders.cancelled.v" ++ toString version)
  | "inventory.reserve.requested" =>
    some ("inventory", "inventory.reserve.requested.v" ++ toString version)
  | "inventory.reserve.approved" =>
    some ("inventory", "inventory.reserve.approved.v" ++ toString version)
  | "inventory.reserve.rejected" =>
    some ("inventory", "inventory.reserve.rejected.v" ++ toString version)
  | "notification.sent" =>
    some ("notifications", "notification.sent.v" ++ toString version)
  | _ => none

/-- The per-event body of the replay loop: route the type (`evt.version || 1`),
skip with a warning when unknown, otherwise publish the stored envelope with
the replay headers. -/
def replayEventStep (e : EventEnvelope) :
    Option PublishAction × Option String :=
  match routingFor e.type (if e.version = 0 then 1 else e.version) with
  | none => (none, some ("[Replay] unknown event type, skipping: " ++ e.type))
  | some route =>
    (some { exchange := route.1, routingKey := route.2, body := .env e,
            headers := { xReplay := some true,
                         xCorrelation := some e.correlationId,
                         xGroup := e.payloadOrderId } },
     none)

/-- One iteration of the replay loop over the accumulated publishes and
warnings. -/
def replayFoldStep (acc : List PublishAction × List String)
    (e : EventEnvelope) : List PublishAction × List String :=
  match replayEventStep e with
  | (some p, _) => (acc.1 ++ [p], acc.2)
  | (none, some w) => (acc.1, acc.2 ++ [w])
  | (none, none) => acc

/-- The replay `main`: filter the store by the query, iterate the cursor in
`(occurredAt ASC, eventId ASC)` order, and per event either publish or log a
warning.  The tool only reads the store; the returned store is what it
leaves behind. -/
def replayRun (store : List EventEnvelope) (a : ReplayArgs) :
    List PublishAction × List String × List EventEnvelope :=
  let evs := (store.filter (matchesReplayQuery a)).mergeSort occEventLe
  let out := evs.foldl replayFoldStep ([], [])
  (out.1, out.2, store)

end MicroCore

namespace MicroCore

/-- Helper: the always-fail trace ends on the DLQ with attempt
`maxRetries + 1`, as long as the fuel covers the remaining attempts. -/
theorem alwaysFailTrace_getLast (q : String) (m : Nat) :
    ∀ fuel a, a + fuel = m + 1 → 0 < fuel →
      (alwaysFailTrace q m fuel a).getLast? = some (q ++ ".dlq", m + 1) := by
  intro fuel
  induction fuel with
  | zero => intro a _ h; omega
  | succ f ih =>
    intro a hsum _
    simp only [alwaysFailTrace]
    by_cases hgt : a + 1 > m
    · have ha : a = m := by omega
      simp [hgt, ha]
    · have hf : 0 < f := by omega
      have hs : (a + 1) + f = m + 1 := by omega
      have htl := ih (a + 1) hs hf
      rw [if_neg hgt]
      cases hcase : alwaysFailTrace q m f (a + 1) with
      | nil => rw [hcase] at htl; simp at htl
      | cons x xs =>
        rw [hcase] at htl
        rw [List.getLast?_cons_cons]
        exact htl

/-- Helper: the always-fail trace makes one republish per remaining
attempt. -/
theorem alwaysFailTrace_length (q : String) (m : Nat) :
    ∀ fuel a, a + fuel = m + 1 →
      (alwaysFailTrace q m fuel a).length = fuel := by
  intro fuel
  induction fuel with
  | zero => intro a _; simp [alwaysFailTrace]
  | succ f ih =>
    intro a hsum
    simp only [alwaysFailTrace]
    by_cases hgt : a + 1 > m
    · have hf : f = 0 := by omega
      simp [hgt, hf]
    · have hs : (a + 1) + f = m + 1 := by omega
      simp [hgt, ih (a + 1) hs]

/-- C1: the `retry()` helper computes `nextAttempt = attempt + 1`
(reading a missing `x-attempt` header as 0); when `nextAttempt > maxRetries`
it republishes the raw content to `queue.dlq` with `x-attempt = nextAttempt`
and acks, otherwise to `queue.retry` with the incremented header and acks;
consequently a handler that always fails sends the message to the DLQ after
`maxRetries + 1` deliveries, and the DLQ copy carries
`x-attempt = maxRetries + 1`. -/
theorem retry_helper_routes_and_always_fail_dlq_attempt
    (queue : String) (maxRetries : Nat) (d : Delivery) :
    (d.attempts + 1 > maxRetries →
      retryActions queue maxRetries d =
        [.publish { exchange := "", routingKey := queue ++ ".dlq",
                    body := .raw d.raw,
                    headers := { d.headers with xAttempt := some (d.attempts + 1) } },
         .ack]) ∧
    (d.attempts + 1 ≤ maxRetries →
      retryActions queue maxRetries d =
        [.publish { exchange := "", routingKey := queue ++ ".retry",
                    body := .raw d.raw,
                    headers := { d.headers with xAttempt := some (d.attempts + 1) } },
         .ack]) ∧
    (alwaysFailTrace queue maxRetries (maxRetries + 1) 0).getLast? =
      some (queue ++ ".dlq", maxRetries + 1) ∧
    (alwaysFailTrace queue maxRetries (maxRetries + 1) 0).length = maxRetries + 1 := by
  refine ⟨?_, ?_, ?_, ?_⟩
  · intro h
    simp [retryActions, h]
  · intro h
    have : ¬ (d.attempts + 1 > maxRetries) := by omega
    simp [retryActions, this]
  · exact alwaysFailTrace_getLast queue maxRetries (maxRetries + 1) 0 (by omega) (by omega)
  · exact alwaysFailTrace_length queue maxRetries (maxRetries + 1) 0 (by omega)

/-- A concrete delivery for witnesses: raw bytes `"msg"`, no parsed body
needed, `x-attempt = 3`. -/
def witnessDelivery : Delivery :=
  { raw := "msg", parsed := none, headers := { xAttempt := some 3 } }

/-- C1 witness: with `maxRetries = 3` and `x-attempt = 3` the next retry
goes to the DLQ carrying `x-attempt = 4`, and the always-fail trace over
four deliveries ends with `("order.created.q.dlq", 4)`. -/
theorem retry_helper_witness :
    retryActions "order.created.q" 3 witnessDelivery =
      [.publish { exchange := "", routingKey := "order.created.q.dlq",
                  body := .raw "msg",
                  headers := { xAttempt := some 4 } },
       .ack] ∧
    (alwaysFailTrace "order.created.q" 3 4 0).getLast? =
      some ("order.created.q.dlq", 4) := by
  have h := retry_helper_routes_and_always_fail_dlq_attempt "order.created.q" 3 witnessDelivery
  refine ⟨?_, h.2.2.1⟩
  have h1 := h.1 (by decide)
  simpa [witnessDelivery] using h1

end MicroCore

namespace MicroCore

/-- Inverting a successful `EventEnvelopeBaseV1` check. -/
theorem parseBase_some_facts (j : Json) (t : String) (b : BaseFields)
    (h : parseBase j t = some b) :
    isUuidFormat b.eventId = true ∧ 1 ≤ b.occurredAt.length ∧
    1 ≤ b.producer.length ∧ 1 ≤ b.correlationId.length := by
  unfold parseBase at h
  split at h
  · split_ifs at h with hc
    injection h with h
    subst h
    simp only [Bool.and_eq_true, beq_iff_eq, decide_eq_true_eq] at hc
    obtain ⟨⟨⟨⟨⟨h1, _⟩, _⟩, h4⟩, h5⟩, h6⟩ := hc
    exact ⟨h1, h4, h5, h6⟩
  · exact Option.noConfusion h

/-- Inverting a successful `OrderItemSchema` check. -/
theorem parseOrderItem_some_facts (j : Json) (it : OrderItem)
    (h : parseOrderItem j = some it) :
    0 < it.quantity ∧ 0 < it.unitPrice := by
  unfold parseOrderItem at h
  split at h
  · split_ifs at h with hc
    injection h with h
    subst h
    simp only [Bool.and_eq_true, beq_iff_eq, decide_eq_true_eq] at hc
    exact ⟨hc.1.2, hc.2⟩
  · exact Option.noConfusion h

/-- Every item of a successfully parsed `items` array has positive quantity
and positive unit price. -/
theorem parseItems_mem_facts (l : List Json) (items : List OrderItem)
    (h : parseItems l = some items) :
    ∀ it ∈ items, 0 < it.quantity ∧ 0 < it.unitPrice := by
  induction l generalizing items with
  | nil =>
    unfold parseItems at h
    injection h with h
    subst h
    intro it hit
    exact absurd hit (List.not_mem_nil it)
  | cons j rest ih =>
    unfold parseItems at h
    split at h
    · next it0 tl hit0 htl =>
      injection h with h
      subst h
      intro it hit
      rcases List.mem_cons.mp hit with heq | hmem
      · subst heq
        exact parseOrderItem_some_facts j it hit0
      · exact ih tl htl it hmem
    · exact Option.noConfusion h

/-- Inverting a successful `OrdersCreatedV1Schema` parse. -/
theorem parseOrdersCreatedV1_some_facts (j : Json) (m : OrdersCreatedMsg)
    (h : parseOrdersCreatedV1 j = some m) :
    isUuidFormat m.base.eventId = true ∧ 1 ≤ m.base.occurredAt.length ∧
    1 ≤ m.base.producer.length ∧ 1 ≤ m.base.correlationId.length ∧
    1 ≤ m.payload.orderId.length ∧ 1 ≤ m.payload.customerId.length ∧
    1 ≤ m.payload.items.length ∧ 0 < m.payload.total ∧
    (∀ it ∈ m.payload.items, 0 < it.quantity ∧ 0 < it.unitPrice) := by
  unfold parseOrdersCreatedV1 at h
  split at h
  · next base p hbase hp =>
    split at h
    · next oid cid items total hoid hcid hitems htotal =>
      split_ifs at h with hc
      injection h with h
      subst h
      simp only [Bool.and_eq_true, decide_eq_true_eq] at hc
      obtain ⟨⟨⟨hoidLen, hcidLen⟩, hitemsLen⟩, htotalPos⟩ := hc
      have hbaseFacts := parseBase_some_facts j "orders.created" base hbase
      have hitemsFacts : ∀ it ∈ items, 0 < it.quantity ∧ 0 < it.unitPrice := by
        rcases Option.bind_eq_some.mp hitems with ⟨arr0, _, harr⟩
        exact parseItems_mem_facts arr0 items harr
      exact ⟨hbaseFacts.1, hbaseFacts.2.1, hbaseFacts.2.2.1, hbaseFacts.2.2.2,
             hoidLen, hcidLen, hitemsLen, htotalPos, hitemsFacts⟩
    · exact Option.noConfusion h
  · exact Option.noConfusion h

/-- Inverting a successful `InventoryReserveApprovedV1Schema` parse. -/
theorem parseInvApprovedV1_some_facts (j : Json) (m : InvApprovedMsg)
    (h : parseInvApprovedV1 j = some m) :
    isUuidFormat m.base.eventId = true ∧ 1 ≤ m.base.occurredAt.length ∧
    1 ≤ m.base.producer.length ∧ 1 ≤ m.base.correlationId.length ∧
    1 ≤ m.payload.orderId.length ∧ 1 ≤ m.payload.reservationId.length := by
  unfold parseInvApprovedV1 at h
  split at h
  · next base p hbase hp =>
    split at h
    · next oid rid hoid hrid =>
      split_ifs at h with hc
      injection h with h
      subst h
      simp only [Bool.and_eq_true, decide_eq_true_eq] at hc
      have hbaseFacts := parseBase_some_facts j "inventory.reserve.approved" base hbase
      exact ⟨hbaseFacts.1, hbaseFacts.2.1, hbaseFacts.2.2.1, hbaseFacts.2.2.2,
             hc.1, hc.2⟩
    · exact Option.noConfusion h
  · exact Option.noConfusion h

/-- Inverting a successful `InventoryReserveRejectedV1Schema` parse. -/
theorem parseInvRejectedV1_some_facts (j : Json) (m : InvRejectedMsg)
    (h : parseInvRejectedV1 j = some m) :
    isUuidFormat m.base.eventId = true ∧ 1 ≤ m.base.occurredAt.length ∧
    1 ≤ m.base.producer.length ∧ 1 ≤ m.base.correlationId.length ∧
    1 ≤ m.payload.orderId.length ∧ 1 ≤ m.payload.reason.length := by
  unfold parseInvRejectedV1 at h
  split at h
  · next base p hbase hp =>
    split at h
    · next oid reason hoid hreason =>
      split_ifs at h with hc
      injection h with h
      subst h
      simp only [Bool.and_eq_true, decide_eq_true_eq] at hc
      have hbaseFacts := parseBase_some_facts j "inventory.reserve.rejected" base hbase
      exact ⟨hbaseFacts.1, hbaseFacts.2.1, hbaseFacts.2.2.1, hbaseFacts.2.2.2,
             hc.1, hc.2⟩
    · exact Option.noConfusion h
  · exact Option.noConfusion h

end MicroCore

namespace MicroCore

/-- `safeParse` succeeds on the inventory service's constructed approved
envelope exactly when its refinement checks hold. -/
theorem parseInvApproved_encode (b : BaseFields) (p : ApprovedPayload)
    (h1 : isUuidFormat b.eventId = true) (h2 : 1 ≤ b.occurredAt.length)
    (h3 : 1 ≤ b.producer.length) (h4 : 1 ≤ b.correlationId.length)
    (h5 : 1 ≤ p.orderId.length) (h6 : 1 ≤ p.reservationId.length) :
    parseInvApprovedV1 (encodeEnvelope (InvApprovedMsg.mk b p).toEnvelope) =
      some (InvApprovedMsg.mk b p) := by
  simp [parseInvApprovedV1, parseBase, encodeEnvelope, InvApprovedMsg.toEnvelope,
        Json.getField, Json.asString, Json.asNum, List.lookup,
        h1, h2, h3, h4, h5, h6]

end MicroCore

namespace MicroCore

/-- `safeParse` succeeds on the constructed rejected envelope exactly when
its refinement checks hold. -/
theorem parseInvRejected_encode (b : BaseFields) (p : RejectedPayload)
    (h1 : isUuidFormat b.eventId = true) (h2 : 1 ≤ b.occurredAt.length)
    (h3 : 1 ≤ b.producer.length) (h4 : 1 ≤ b.correlationId.length)
    (h5 : 1 ≤ p.orderId.length) (h6 : 1 ≤ p.reason.length) :
    parseInvRejectedV1 (encodeEnvelope (InvRejectedMsg.mk b p).toEnvelope) =
      some (InvRejectedMsg.mk b p) := by
  simp [parseInvRejectedV1, parseBase, encodeEnvelope, InvRejectedMsg.toEnvelope,
        Json.getField, Json.asString, Json.asNum, List.lookup,
        h1, h2, h3, h4, h5, h6]

/-- `safeParse` succeeds on the constructed cancelled envelope exactly when
its refinement checks hold. -/
theorem parseOrdersCancelled_encode (b : BaseFields) (p : CancelledPayload)
    (h1 : isUuidFormat b.eventId = true) (h2 : 1 ≤ b.occurredAt.length)
    (h3 : 1 ≤ b.producer.length) (h4 : 1 ≤ b.correlationId.length)
    (h5 : 1 ≤ p.orderId.length) (h6 : 1 ≤ p.reason.length) :
    parseOrdersCancelledV1 (encodeEnvelope (OrdersCancelledMsg.mk b p).toEnvelope) =
      some (OrdersCancelledMsg.mk b p) := by
  simp [parseOrdersCancelledV1, parseBase, encodeEnvelope,
        OrdersCancelledMsg.toEnvelope,
        Json.getField, Json.asString, Json.asNum, List.lookup,
        h1, h2, h3, h4, h5, h6]

/-- `productId` of a parsed order item is non-empty. -/
theorem parseOrderItem_some_pid (j : Json) (it : OrderItem)
    (h : parseOrderItem j = some it) : 1 ≤ it.productId.length := by
  unfold parseOrderItem at h
  split at h
  · split_ifs at h with hc
    injection h with h
    subst h
    simp only [Bool.and_eq_true, decide_eq_true_eq] at hc
    exact hc.1.1.1
  · exact Option.noConfusion h

/-- Re-encoding validated items parses back to the same items. -/
theorem parseItems_encode (items : List OrderItem)
    (h : ∀ it ∈ items,
      1 ≤ it.productId.length ∧ 0 < it.quantity ∧ 0 < it.unitPrice) :
    parseItems (items.map encodeItem) = some items := by
  induction items with
  | nil => rfl
  | cons it rest ih =>
    have hit := h it (List.mem_cons_self it rest)
    have hrest : ∀ x ∈ rest,
        1 ≤ x.productId.length ∧ 0 < x.quantity ∧ 0 < x.unitPrice :=
      fun x hx => h x (List.mem_cons_of_mem it hx)
    have hone : parseOrderItem (encodeItem it) = some it := by
      simp [parseOrderItem, encodeItem, Json.getField, Json.asString,
            Json.asNum, List.lookup, hit.1, hit.2.1, hit.2.2]
    simp [parseItems, List.map, hone, ih hrest]

/-- `safeParse` succeeds on the constructed `orders.created` envelope
exactly when its refinement checks hold. -/
theorem parseOrdersCreated_encode (b : BaseFields) (p : CreatedPayload)
    (h1 : isUuidFormat b.eventId = true) (h2 : 1 ≤ b.occurredAt.length)
    (h3 : 1 ≤ b.producer.length) (h4 : 1 ≤ b.correlationId.length)
    (h5 : 1 ≤ p.orderId.length) (h6 : 1 ≤ p.customerId.length)
    (h7 : 1 ≤ p.items.length) (h8 : 0 < p.total)
    (h9 : ∀ it ∈ p.items,
      1 ≤ it.productId.length ∧ 0 < it.quantity ∧ 0 < it.unitPrice) :
    parseOrdersCreatedV1 (encodeEnvelope (OrdersCreatedMsg.mk b p).toEnvelope) =
      some (OrdersCreatedMsg.mk b p) := by
  have hitems := parseItems_encode p.items h9
  simp [parseOrdersCreatedV1, parseBase, encodeEnvelope,
        OrdersCreatedMsg.toEnvelope, encodeCreatedPayload,
        Json.getField, Json.asString, Json.asNum, Json.asArr, List.lookup,
        hitems, h1, h2, h3, h4, h5, h6, h7, h8]

end MicroCore

namespace MicroCore

/-- C2: a delivery that parses as JSON but fails schema validation in the
inventory `order.created.q` handler is republished once to
`order.created.q.dlq` (raw content, original headers) and acked on that
delivery; no action publishes to the retry queue, so schema failures are
never retried. -/
theorem schema_invalid_routes_to_dlq_never_retry
    (env : InvEnv) (serviceName : String) (maxRetries : Nat)
    (store : List EventEnvelope) (d : Delivery) (j : Json)
    (hp : d.parsed = some j) (hinv : parseOrdersCreatedV1 j = none) :
    inventoryConsumeStep env serviceName maxRetries store d =
      (store,
        [.publish { exchange := "", routingKey := "order.created.q" ++ ".dlq",
                    body := .raw d.raw, headers := d.headers },
         .ack]) ∧
    ∀ act ∈ (inventoryConsumeStep env serviceName maxRetries store d).2,
      ∀ p, act = .publish p → p.routingKey ≠ "order.created.q" ++ ".retry" := by
  have hmain : inventoryConsumeStep env serviceName maxRetries store d =
      (store,
        [.publish { exchange := "", routingKey := "order.created.q" ++ ".dlq",
                    body := .raw d.raw, headers := d.headers },
         .ack]) := by
    simp [inventoryConsumeStep, busConsumeStep, hp,
          inventoryOrderCreatedHandler, hinv, decisionActions, dlqActions]
  refine ⟨hmain, ?_⟩
  rw [hmain]
  intro act hact p hpub
  rcases List.mem_cons.mp hact with h1 | h2
  · subst h1
    injection hpub with hpe
    subst hpe
    simp only [ne_eq]
    decide
  · rcases List.mem_cons.mp h2 with h3 | h4
    · subst h3
      exact absurd hpub (by simp)
    · exact absurd h4 (List.not_mem_nil act)

/-- C2 witness: the concrete invalid body `{}` (missing every envelope
field) is routed to the DLQ with the original headers and acked. -/
theorem schema_invalid_witness :
    inventoryConsumeStep
        { outEventId := "e", nowIso := "t", resUuid := "r", corrFallbackUuid := "c" }
        "inventory-service" 3 []
        { raw := "{}", parsed := some (Json.obj []), headers := {} } =
      ([],
        [.publish { exchange := "", routingKey := "order.created.q" ++ ".dlq",
                    body := .raw "{}", headers := {} },
         .ack]) :=
  (schema_invalid_routes_to_dlq_never_retry
    { outEventId := "e", nowIso := "t", resUuid := "r", corrFallbackUuid := "c" }
    "inventory-service" 3 []
    { raw := "{}", parsed := some (Json.obj []), headers := {} }
    (Json.obj []) rfl rfl).1

end MicroCore

namespace MicroCore

/-- A non-empty-by-schema string wins the JavaScript `||` chain. -/
theorem jsOrStr_of_len (s d : String) (h : 1 ≤ s.length) : jsOrStr s d = s := by
  have hne : s ≠ "" := by
    intro he
    subst he
    simp at h
  simp [jsOrStr, hne]

/-- The reservation id `res_` + 8 uuid chars is never empty. -/
theorem resId_len (x : String) : 1 ≤ ("res_" ++ x.take 8).length := by
  have h : ("res_" ++ x.take 8).length = "res_".length + (x.take 8).length :=
    String.length_append "res_" (x.take 8)
  have h4 : "res_".length = 4 := rfl
  omega

/-- C3: on a schema-valid `orders.created` event the inventory handler acks
and publishes exactly one event to the `inventory` exchange: an
`inventory.reserve.approved` iff the summed quantity `S` satisfies
`0 < S ≤ 10`, otherwise an `inventory.reserve.rejected` whose payload
reason is `insufficient_stock`; either way the outgoing payload carries the
incoming `orderId`. -/
theorem inventory_reservation_rule
    (env : InvEnv) (serviceName : String) (hdrCorr : Option String)
    (store : List EventEnvelope) (j : Json) (evt : OrdersCreatedMsg)
    (hj : parseOrdersCreatedV1 j = some evt)
    (hu : isUuidFormat env.outEventId = true)
    (hn : 1 ≤ env.nowIso.length) (hs : 1 ≤ serviceName.length) :
    (inventoryOrderCreatedHandler env serviceName hdrCorr store j).decision = .ack ∧
    ∃ out : EventEnvelope,
      (inventoryOrderCreatedHandler env serviceName hdrCorr store j).published =
        [{ exchange := "inventory",
           routingKey :=
             if 0 < evt.payload.items.foldl (fun s it => s + it.quantity) 0 ∧
                evt.payload.items.foldl (fun s it => s + it.quantity) 0 ≤ 10
             then "inventory.reserve.approved.v1"
             else "inventory.reserve.rejected.v1",
           body := .env out,
           headers := { xGroup := some evt.payload.orderId,
                        xCorrelation := some out.correlationId } }] ∧
      (out.type = "inventory.reserve.approved" ↔
        (0 < evt.payload.items.foldl (fun s it => s + it.quantity) 0 ∧
         evt.payload.items.foldl (fun s it => s + it.quantity) 0 ≤ 10)) ∧
      (¬(0 < evt.payload.items.foldl (fun s it => s + it.quantity) 0 ∧
         evt.payload.items.foldl (fun s it => s + it.quantity) 0 ≤ 10) →
        out.type = "inventory.reserve.rejected" ∧
        out.payload.getField "reason" = some (Json.str "insufficient_stock")) ∧
      out.payloadOrderId = some evt.payload.orderId := by
  obtain ⟨hU, hOcc, hProd, hCorr, hOid, hCid, hItems, hTot, hItemFacts⟩ :=
    parseOrdersCreatedV1_some_facts j evt hj
  have hjsOr : jsOrStr evt.base.correlationId
      (jsOrOpt hdrCorr (jsOrStr evt.payload.orderId env.corrFallbackUuid)) =
      evt.base.correlationId := jsOrStr_of_len _ _ hCorr
  by_cases hS : 0 < evt.payload.items.foldl (fun s it => s + it.quantity) 0 ∧
      evt.payload.items.foldl (fun s it => s + it.quantity) 0 ≤ 10
  · have happr : (decide (evt.payload.items.foldl (fun s it => s + it.quantity) 0 > 0) &&
        decide (evt.payload.items.foldl (fun s it => s + it.quantity) 0 ≤ 10)) = true := by
      simp [hS.1, hS.2]
    have hOk := parseInvApproved_encode
      { eventId := env.outEventId, occurredAt := env.nowIso,
        producer := serviceName, correlationId := evt.base.correlationId }
      { orderId := evt.payload.orderId,
        reservationId := "res_" ++ env.resUuid.take 8 }
      hu hn hs hCorr hOid (resId_len env.resUuid)
    simp only [InvApprovedMsg.toEnvelope] at hOk
    refine ⟨?_, ?_⟩
    · simp [inventoryOrderCreatedHandler, hj, happr, hjsOr, hOk,
            InvApprovedMsg.toEnvelope]
    · refine ⟨(InvApprovedMsg.mk
        { eventId := env.outEventId, occurredAt := env.nowIso,
          producer := serviceName, correlationId := evt.base.correlationId }
        { orderId := evt.payload.orderId,
          reservationId := "res_" ++ env.resUuid.take 8 }).toEnvelope, ?_, ?_, ?_, ?_⟩
      · simp [inventoryOrderCreatedHandler, hj, happr, hjsOr, hOk, hS,
              InvApprovedMsg.toEnvelope]
      · simp [InvApprovedMsg.toEnvelope, hS]
      · intro hc
        exact absurd hS hc
      · simp [InvApprovedMsg.toEnvelope, EventEnvelope.payloadOrderId,
              Json.getField, Json.asString, List.lookup]
  · have happr : (decide (evt.payload.items.foldl (fun s it => s + it.quantity) 0 > 0) &&
        decide (evt.payload.items.foldl (fun s it => s + it.quantity) 0 ≤ 10)) = false := by
      rcases Decidable.not_and_iff_or_not.mp hS with h | h
      · simp [h]
      · simp [h]
    have hOk := parseInvRejected_encode
      { eventId := env.outEventId, occurredAt := env.nowIso,
        producer := serviceName, correlationId := evt.base.correlationId }
      { orderId := evt.payload.orderId, reason := "insufficient_stock" }
      hu hn hs hCorr hOid (by
        show (1 : Nat) ≤ "insufficient_stock".length
        decide)
    simp only [InvRejectedMsg.toEnvelope] at hOk
    refine ⟨?_, ?_⟩
    · simp [inventoryOrderCreatedHandler, hj, happr, hjsOr, hOk,
            InvRejectedMsg.toEnvelope]
    · refine ⟨(InvRejectedMsg.mk
        { eventId := env.outEventId, occurredAt := env.nowIso,
          producer := serviceName, correlationId := evt.base.correlationId }
        { orderId := evt.payload.orderId, reason := "insufficient_stock" }).toEnvelope,
        ?_, ?_, ?_, ?_⟩
      · simp [inventoryOrderCreatedHandler, hj, happr, hjsOr, hOk, hS,
              InvRejectedMsg.toEnvelope]
      · simp [InvRejectedMsg.toEnvelope, hS]
      · intro _
        exact ⟨rfl, by
          simp [InvRejectedMsg.toEnvelope, Json.getField, List.lookup]⟩
      · simp [InvRejectedMsg.toEnvelope, EventEnvelope.payloadOrderId,
              Json.getField, Json.asString, List.lookup]

end MicroCore

namespace MicroCore

/-- Concrete witness environment for the inventory handler. -/
def invEnvW : InvEnv :=
  { outEventId := "123e4567-e89b-42d3-a456-426614174000",
    nowIso := "2025-08-09T00:00:01Z", resUuid := "abcdef12-3456",
    corrFallbackUuid := "f" }

/-- Concrete schema-valid `orders.created` message: one item of quantity 2. -/
def createdJsonW : Json :=
  Json.obj [("eventId", Json.str "00000000-0000-0000-0000-000000000001"),
            ("type", Json.str "orders.created"),
            ("version", Json.num 1),
            ("occurredAt", Json.str "2025-08-09T00:00:00Z"),
            ("producer", Json.str "order-service"),
            ("correlationId", Json.str "corr-1"),
            ("payload",
              Json.obj [("orderId", Json.str "ord_1"),
                        ("customerId", Json.str "cust_1"),
                        ("items",
                          Json.arr [Json.obj [("productId", Json.str "p1"),
                                              ("quantity", Json.num 2),
                                              ("unitPrice", Json.num 100)]]),
                        ("total", Json.num 200)])]

/-- The parse result of `createdJsonW`. -/
def createdMsgW : OrdersCreatedMsg :=
  { base := { eventId := "00000000-0000-0000-0000-000000000001",
              occurredAt := "2025-08-09T00:00:00Z",
              producer := "order-service", correlationId := "corr-1" },
    payload := { orderId := "ord_1", customerId := "cust_1",
                 items := [{ productId := "p1", quantity := 2, unitPrice := 100 }],
                 total := 200 } }

/-- C3 witness: with summed quantity 2 the handler acks and publishes the
approved event for the same orderId. -/
theorem inventory_reservation_rule_witness :
    (inventoryOrderCreatedHandler invEnvW "inventory-service" none [] createdJsonW).decision = .ack ∧
    ∃ out : EventEnvelope,
      (inventoryOrderCreatedHandler invEnvW "inventory-service" none [] createdJsonW).published =
        [{ exchange := "inventory",
           routingKey :=
             if 0 < createdMsgW.payload.items.foldl (fun s it => s + it.quantity) 0 ∧
                createdMsgW.payload.items.foldl (fun s it => s + it.quantity) 0 ≤ 10
             then "inventory.reserve.approved.v1"
             else "inventory.reserve.rejected.v1",
           body := .env out,
           headers := { xGroup := some createdMsgW.payload.orderId,
                        xCorrelation := some out.correlationId } }] ∧
      (out.type = "inventory.reserve.approved" ↔
        (0 < createdMsgW.payload.items.foldl (fun s it => s + it.quantity) 0 ∧
         createdMsgW.payload.items.foldl (fun s it => s + it.quantity) 0 ≤ 10)) ∧
      (¬(0 < createdMsgW.payload.items.foldl (fun s it => s + it.quantity) 0 ∧
         createdMsgW.payload.items.foldl (fun s it => s + it.quantity) 0 ≤ 10) →
        out.type = "inventory.reserve.rejected" ∧
        out.payload.getField "reason" = some (Json.str "insufficient_stock")) ∧
      out.payloadOrderId = some createdMsgW.payload.orderId :=
  inventory_reservation_rule invEnvW "inventory-service" none [] createdJsonW
    createdMsgW (by decide) (by decide) (by decide) (by decide)

end MicroCore

namespace MicroCore

/-- C5: event-store append is idempotent on event identity: appending `e`
and then any envelope with the same `eventId` (in particular `e` again)
leaves exactly one row with that id, and both appends complete as success
(the duplicate insert is a caught no-op, not an error). -/
theorem append_idempotent_on_eventId
    (s : List EventEnvelope) (e e2 : EventEnvelope)
    (hfresh : s.all (fun r => r.eventId ≠ e.eventId))
    (hsame : e2.eventId = e.eventId) :
    countEventId (eventsAppend (eventsAppend s e).1 e2).1 e.eventId = 1 ∧
    (eventsAppend s e).2 = .ok () ∧
    (eventsAppend (eventsAppend s e).1 e2).2 = .ok () := by
  have hnone : s.any (fun r => r.eventId = e.eventId) = false := by
    simp only [List.all_eq_true, ne_eq, decide_not, Bool.not_eq_true',
               decide_eq_false_iff_not] at hfresh
    simp only [List.any_eq_false, decide_eq_true_eq]
    exact hfresh
  have h1 : eventsAppend s e = (s ++ [e], .ok ()) := by
    simp [eventsAppend, hnone]
  have hdup : (s ++ [e]).any (fun r => r.eventId = e2.eventId) = true := by
    simp only [List.any_append, Bool.or_eq_true, List.any_eq_true,
               decide_eq_true_eq]
    right
    exact ⟨e, by simp, hsame.symm⟩
  have h2 : eventsAppend (s ++ [e]) e2 = (s ++ [e], .ok ()) := by
    simp [eventsAppend, hdup]
  refine ⟨?_, by rw [h1], by rw [h1]; simp only; rw [h2]⟩
  rw [h1]
  simp only
  rw [h2]
  simp only [countEventId, List.filter_append]
  have hnil : s.filter (fun r => r.eventId = e.eventId) = [] := by
    rw [List.filter_eq_nil_iff]
    intro r hr
    simp only [List.all_eq_true, ne_eq, decide_not, Bool.not_eq_true',
               decide_eq_false_iff_not] at hfresh
    simpa using hfresh r hr
  simp [hnil]

/-- C5 witness: appending the same concrete envelope twice to the empty
store leaves one row and both calls succeed. -/
theorem append_idempotent_witness :
    countEventId (eventsAppend (eventsAppend []
      { eventId := "00000000-0000-0000-0000-000000000001",
        type := "orders.created", version := 1, occurredAt := "t",
        producer := "order-service", correlationId := "c",
        payload := Json.null }).1
      { eventId := "00000000-0000-0000-0000-000000000001",
        type := "orders.created", version := 1, occurredAt := "t",
        producer := "order-service", correlationId := "c",
        payload := Json.null }).1
      "00000000-0000-0000-0000-000000000001" = 1 :=
  (append_idempotent_on_eventId []
    { eventId := "00000000-0000-0000-0000-000000000001",
      type := "orders.created", version := 1, occurredAt := "t",
      producer := "order-service", correlationId := "c",
      payload := Json.null }
    { eventId := "00000000-0000-0000-0000-000000000001",
      type := "orders.created", version := 1, occurredAt := "t",
      producer := "order-service", correlationId := "c",
      payload := Json.null }
    (by simp) rfl).1

end MicroCore

namespace MicroCore

/-- A concrete order already CANCELLED. -/
def cancelledOrderW : OrderDoc :=
  { orderId := "ord_1", customerId := "cust_1", items := [], total := 0,
    status := .CANCELLED, createdAt := "t0", updatedAt := "t0" }

/-- A concrete schema-valid `inventory.reserve.approved` event for
`ord_1`. -/
def approvedJsonW : Json :=
  Json.obj [("eventId", Json.str "00000000-0000-0000-0000-000000000002"),
            ("type", Json.str "inventory.reserve.approved"),
            ("version", Json.num 1),
            ("occurredAt", Json.str "2025-08-09T00:00:02Z"),
            ("producer", Json.str "inventory-service"),
            ("correlationId", Json.str "corr-1"),
            ("payload",
              Json.obj [("orderId", Json.str "ord_1"),
                        ("reservationId", Json.str "res_abc")])]

/-- C6 counterexample: the order-service approved handler delivered after
the order is CANCELLED does *not* leave the status unchanged — the
guard-free `updateStatus` flips it to CONFIRMED. -/
theorem terminal_status_counterexample :
    cancelledOrderW.status = .CANCELLED ∧
    ((orderHandleApproved "t2" [cancelledOrderW] [] approvedJsonW).1.map
      OrderDoc.status) = [.CONFIRMED] ∧
    (orderHandleApproved "t2" [cancelledOrderW] [] approvedJsonW).2.2 = .ack := by
  refine ⟨rfl, ?_, ?_⟩ <;> decide

/-- `updateOne` touches exactly the first matching document. -/
theorem ordersUpdateStatus_split (pre post : List OrderDoc) (o : OrderDoc)
    (oid : String) (st : OrderStatus) (now : String)
    (hpre : ∀ x ∈ pre, x.orderId ≠ oid) (ho : o.orderId = oid) :
    ordersUpdateStatus (pre ++ o :: post) oid st now =
      pre ++ { o with status := st, updatedAt := now } :: post := by
  induction pre with
  | nil => simp [ordersUpdateStatus, ho]
  | cons x rest ih =>
    have hx : x.orderId ≠ oid := hpre x (List.mem_cons_self x rest)
    have hrest : ∀ y ∈ rest, y.orderId ≠ oid :=
      fun y hy => hpre y (List.mem_cons_of_mem x hy)
    simp [ordersUpdateStatus, hx, ih hrest]

/-- C6 amended: REJECTED and CANCELLED are not terminal at the aggregate
level.  A later schema-valid `inventory.reserve.approved`
(resp. `inventory.reserve.rejected`) delivery for an order appends the event
and sets the order's status to CONFIRMED (resp. REJECTED) last-write-wins,
whatever the previous status was. -/
theorem inventory_events_transition_lastWriteWins
    (updIso : String) (pre post : List OrderDoc) (o : OrderDoc)
    (events : List EventEnvelope) (j : Json)
    (hpre : ∀ x ∈ pre, x.orderId ≠ o.orderId) :
    (∀ evtA, parseInvApprovedV1 j = some evtA →
      evtA.payload.orderId = o.orderId →
      orderHandleApproved updIso (pre ++ o :: post) events j =
        (pre ++ { o with status := .CONFIRMED, updatedAt := updIso } :: post,
         (eventsAppend events evtA.toEnvelope).1, .ack)) ∧
    (∀ evtR, parseInvRejectedV1 j = some evtR →
      evtR.payload.orderId = o.orderId →
      orderHandleRejected updIso (pre ++ o :: post) events j =
        (pre ++ { o with status := .REJECTED, updatedAt := updIso } :: post,
         (eventsAppend events evtR.toEnvelope).1, .ack)) := by
  constructor
  · intro evtA hj hoid
    have hupd := ordersUpdateStatus_split pre post o o.orderId .CONFIRMED updIso hpre rfl
    simp [orderHandleApproved, hj, hoid, hupd]
  · intro evtR hj hoid
    have hupd := ordersUpdateStatus_split pre post o o.orderId .REJECTED updIso hpre rfl
    simp [orderHandleRejected, hj, hoid, hupd]

/-- C6 amended witness: the concrete CANCELLED order is flipped to
CONFIRMED by the approved event, which is appended. -/
theorem inventory_events_transition_witness :
    orderHandleApproved "t2" ([] ++ cancelledOrderW :: []) [] approvedJsonW =
      ([] ++ { cancelledOrderW with status := .CONFIRMED, updatedAt := "t2" } :: [],
       (eventsAppend []
         { eventId := "00000000-0000-0000-0000-000000000002",
           type := "inventory.reserve.approved", version := 1,
           occurredAt := "2025-08-09T00:00:02Z",
           producer := "inventory-service", correlationId := "corr-1",
           payload := Json.obj [("orderId", Json.str "ord_1"),
                                ("reservationId", Json.str "res_abc")] }).1,
       .ack) :=
  (inventory_events_transition_lastWriteWins "t2" [] [] cancelledOrderW []
    approvedJsonW (by simp)).1
    { base := { eventId := "00000000-0000-0000-0000-000000000002",
                occurredAt := "2025-08-09T00:00:02Z",
                producer := "inventory-service", correlationId := "corr-1" },
      payload := { orderId := "ord_1", reservationId := "res_abc" } }
    (by decide) rfl

end MicroCore

namespace MicroCore

/-- C7 counterexample: with the default thresholds (volume 5, error 50%),
after five consecutive failed calls the sixth call through
`executeWithBreaker` still executes the underlying I/O action (first
component `true` for every call) instead of failing fast. -/
theorem breaker_never_opens_counterexample :
    breakerCallSeq defaultBreakerOptions true (List.replicate 6 .failure) =
      List.replicate 6 (true, CallOutcome.failure) := by
  decide

/-- C7 amended: `executeWithBreaker` constructs a fresh breaker for every
call and discards it in the `finally`, so no failure statistics accumulate
across calls: for any thresholds and any call history, every call executes
the wrapped I/O action and surfaces its own outcome — the breaker never
fails fast because of earlier calls. -/
theorem executeWithBreaker_always_executes
    (opts : BreakerOptions) (enabled : Bool) (outs : List CallOutcome) :
    breakerCallSeq opts enabled outs = outs.map (fun o => (true, o)) := by
  cases enabled <;>
    simp [breakerCallSeq, executeWithBreaker, newBreaker, breakerFire]

end MicroCore

namespace MicroCore

/-- A non-empty string has positive length. -/
theorem one_le_length_of_ne (s : String) (h : s ≠ "") : 1 ≤ s.length := by
  cases s with
  | mk data =>
    cases data with
    | nil => exact absurd rfl h
    | cons c cs =>
      show 1 ≤ (c :: cs).length
      simp

/-- The `||`-with-default chain yields a non-empty string when the default
is non-empty. -/
theorem jsOrStr_len (s d : String) (hd : 1 ≤ d.length) :
    1 ≤ (jsOrStr s d).length := by
  unfold jsOrStr
  split_ifs with h
  · exact hd
  · exact one_le_length_of_ne s h

theorem jsOrOpt_len (o : Option String) (d : String) (hd : 1 ≤ d.length) :
    1 ≤ (jsOrOpt o d).length := by
  unfold jsOrOpt
  cases o with
  | none => exact hd
  | some s => exact jsOrStr_len s d hd

/-- The generated correlation fallback `corr-` + uuid is never empty. -/
theorem corrFallback_len (x : String) : 1 ≤ ("corr-" ++ x).length := by
  have h : ("corr-" ++ x).length = "corr-".length + x.length :=
    String.length_append "corr-" x
  have h5 : "corr-".length = 5 := rfl
  omega

/-- `updateOne` matching no document leaves the collection unchanged. -/
theorem ordersUpdateStatus_no_match (orders : List OrderDoc) (oid : String)
    (st : OrderStatus) (now : String)
    (hno : ∀ o ∈ orders, o.orderId ≠ oid) :
    ordersUpdateStatus orders oid st now = orders := by
  induction orders with
  | nil => rfl
  | cons o rest ih =>
    have ho : o.orderId ≠ oid := hno o (List.mem_cons_self o rest)
    have hrest : ∀ x ∈ rest, x.orderId ≠ oid :=
      fun x hx => hno x (List.mem_cons_of_mem o hx)
    simp [ordersUpdateStatus, ho, ih hrest]

/-- An envelope fresh by `eventId` is inserted at the end of the store. -/
theorem eventsAppend_fresh (events : List EventEnvelope) (e : EventEnvelope)
    (hfresh : ∀ r ∈ events, r.eventId ≠ e.eventId) :
    eventsAppend events e = (events ++ [e], .ok ()) := by
  have hnone : events.any (fun r => r.eventId = e.eventId) = false := by
    simp only [List.any_eq_false, decide_eq_true_eq]
    exact hfresh
  simp [eventsAppend, hnone]

/-- C10: `POST /orders/:id/cancel` with a non-empty id whose order does not
exist still responds `202 {orderId, status: CANCELLED}`, appends exactly one
`orders.cancelled` event for that orderId, publishes it to the `orders`
exchange with routing key `orders.cancelled.v1`, and leaves the orders
collection unchanged (the update matches nothing; no row is created). -/
theorem cancel_nonexistent_order
    (s : OrderState) (env : CancelEnv) (idParam : String)
    (reasonField corrHdr : Option String)
    (hid : jsTrim idParam ≠ "")
    (hno : ∀ o ∈ s.orders, o.orderId ≠ jsTrim idParam)
    (hu : isUuidFormat env.eventId = true) (hn : 1 ≤ env.nowIso.length)
    (hfresh : ∀ r ∈ s.events, r.eventId ≠ env.eventId) :
    (cancelOrder s env idParam reasonField corrHdr).2 =
      { status := 202, orderId := some (jsTrim idParam),
        orderStatus := some .CANCELLED } ∧
    (cancelOrder s env idParam reasonField corrHdr).1.orders = s.orders ∧
    (∃ ev : EventEnvelope,
      (cancelOrder s env idParam reasonField corrHdr).1.events = s.events ++ [ev] ∧
      ev.type = "orders.cancelled" ∧ ev.eventId = env.eventId ∧
      ev.payloadOrderId = some (jsTrim idParam)) ∧
    (∃ p : PublishAction,
      (cancelOrder s env idParam reasonField corrHdr).1.published =
        s.published ++ [p] ∧
      p.exchange = "orders" ∧ p.routingKey = "orders.cancelled.v1") := by
  have hreason : 1 ≤ (cancelReason reasonField).length := by
    cases reasonField with
    | none =>
      show (1 : Nat) ≤ "user_request".length
      decide
    | some r =>
      refine jsOrStr_len (jsTrim r) "user_request" ?_
      show (1 : Nat) ≤ "user_request".length
      decide
  have hcorrLen : 1 ≤ (jsOrOpt corrHdr ("corr-" ++ env.corrUuid)).length :=
    jsOrOpt_len corrHdr _ (corrFallback_len env.corrUuid)
  have hprod : (1 : Nat) ≤ "order-service".length := by decide
  have hOk := parseOrdersCancelled_encode
    { eventId := env.eventId, occurredAt := env.nowIso,
      producer := "order-service",
      correlationId := jsOrOpt corrHdr ("corr-" ++ env.corrUuid) }
    { orderId := jsTrim idParam, reason := cancelReason reasonField }
    hu hn hprod hcorrLen (one_le_length_of_ne _ hid) hreason
  simp only [OrdersCancelledMsg.toEnvelope] at hOk
  have hupd := ordersUpdateStatus_no_match s.orders (jsTrim idParam) .CANCELLED
    env.updIso hno
  have happ := eventsAppend_fresh s.events
    { eventId := env.eventId, type := "orders.cancelled", version := 1,
      occurredAt := env.nowIso, producer := "order-service",
      correlationId := jsOrOpt corrHdr ("corr-" ++ env.corrUuid),
      payload := Json.obj [("orderId", Json.str (jsTrim idParam)),
                           ("reason", Json.str (cancelReason reasonField))] }
    hfresh
  refine ⟨?_, ?_, ?_, ?_⟩
  · simp [cancelOrder, hid, hOk]
  · simp [cancelOrder, hid, hOk, hupd]
  · have hev : (cancelOrder s env idParam reasonField corrHdr).1.events =
        s.events ++
          [{ eventId := env.eventId, type := "orders.cancelled", version := 1,
             occurredAt := env.nowIso, producer := "order-service",
             correlationId := jsOrOpt corrHdr ("corr-" ++ env.corrUuid),
             payload := Json.obj [("orderId", Json.str (jsTrim idParam)),
                                  ("reason", Json.str (cancelReason reasonField))] }] := by
      simp [cancelOrder, hid, hOk, happ]
    refine ⟨_, hev, rfl, rfl, ?_⟩
    simp [EventEnvelope.payloadOrderId, Json.getField, Json.asString,
          List.lookup]
  · have hpub : (cancelOrder s env idParam reasonField corrHdr).1.published =
        s.published ++
          [{ exchange := "orders", routingKey := "orders.cancelled.v1",
             body := MqBody.env
               { eventId := env.eventId, type := "orders.cancelled", version := 1,
                 occurredAt := env.nowIso, producer := "order-service",
                 correlationId := jsOrOpt corrHdr ("corr-" ++ env.corrUuid),
                 payload := Json.obj [("orderId", Json.str (jsTrim idParam)),
                                      ("reason", Json.str (cancelReason reasonField))] },
             headers := { xGroup := some (jsTrim idParam),
                          xCorrelation := some (jsOrOpt corrHdr ("corr-" ++ env.corrUuid)) } }] := by
      simp [cancelOrder, hid, hOk]
    exact ⟨_, hpub, rfl, rfl⟩

end MicroCore

namespace MicroCore

/-- An empty order-service state for witnesses. -/
def orderStateW : OrderState :=
  { orders := [], events := [], idem := [], published := [] }

def cancelEnvW : CancelEnv :=
  { eventId := "00000000-0000-0000-0000-00000000000a",
    nowIso := "2025-08-09T00:00:03Z", updIso := "2025-08-09T00:00:03Z",
    corrUuid := "u" }

/-- C10 witness: cancelling the absent order `ord_zz` answers 202 CANCELLED
and leaves the empty orders collection empty. -/
theorem cancel_nonexistent_witness :
    (cancelOrder orderStateW cancelEnvW "ord_zz" none none).2 =
      { status := 202, orderId := some (jsTrim "ord_zz"),
        orderStatus := some .CANCELLED } ∧
    (cancelOrder orderStateW cancelEnvW "ord_zz" none none).1.orders =
      orderStateW.orders :=
  have h := cancel_nonexistent_order orderStateW cancelEnvW "ord_zz" none none
    (by decide) (by simp [orderStateW]) (by decide) (by decide)
    (by simp [orderStateW])
  ⟨h.1, h.2.1⟩

end MicroCore

namespace MicroCore

/-- All three refinements of every successfully parsed item. -/
theorem parseItems_mem_all (l : List Json) (items : List OrderItem)
    (h : parseItems l = some items) :
    ∀ it ∈ items,
      1 ≤ it.productId.length ∧ 0 < it.quantity ∧ 0 < it.unitPrice := by
  induction l generalizing items with
  | nil =>
    unfold parseItems at h
    injection h with h
    subst h
    intro it hit
    exact absurd hit (List.not_mem_nil it)
  | cons j rest ih =>
    unfold parseItems at h
    split at h
    · next it0 tl hit0 htl =>
      injection h with h
      subst h
      intro it hit
      rcases List.mem_cons.mp hit with heq | hmem
      · subst heq
        exact ⟨parseOrderItem_some_pid j it hit0,
               parseOrderItem_some_facts j it hit0⟩
      · exact ih tl htl it hmem
    · exact Option.noConfusion h

/-- Inverting a successful `CreateOrderSchema` body parse. -/
theorem parseCreateOrderBody_some_facts (j : Json) (cid : String)
    (items : List OrderItem)
    (h : parseCreateOrderBody j = some (cid, items)) :
    1 ≤ cid.length ∧ 1 ≤ items.length ∧
    ∀ it ∈ items,
      1 ≤ it.productId.length ∧ 0 < it.quantity ∧ 0 < it.unitPrice := by
  unfold parseCreateOrderBody at h
  split at h
  · next cid0 items0 hcid0 hitems0 =>
    split_ifs at h with hc
    injection h with h
    cases h
    simp only [Bool.and_eq_true, decide_eq_true_eq] at hc
    have hfacts : ∀ it ∈ items, 1 ≤ it.productId.length ∧ 0 < it.quantity ∧
        0 < it.unitPrice := by
      rcases Option.bind_eq_some.mp hitems0 with ⟨arr0, _, harr⟩
      exact parseItems_mem_all arr0 items harr
    exact ⟨hc.1, hc.2, hfacts⟩
  · exact Option.noConfusion h

/-- The total accumulator only grows while folding positive line totals. -/
theorem le_foldl_total (items : List OrderItem)
    (h : ∀ it ∈ items, 0 < (it.quantity : Rat) * it.unitPrice) :
    ∀ acc : Rat,
      acc ≤ items.foldl (fun s it => s + (it.quantity : Rat) * it.unitPrice) acc := by
  induction items with
  | nil => intro acc; simp
  | cons it rest ih =>
    intro acc
    have hpos := h it (List.mem_cons_self it rest)
    have hrest : ∀ x ∈ rest, 0 < (x.quantity : Rat) * x.unitPrice :=
      fun x hx => h x (List.mem_cons_of_mem it hx)
    have step : acc ≤ acc + (it.quantity : Rat) * it.unitPrice := by linarith
    calc acc ≤ acc + (it.quantity : Rat) * it.unitPrice := step
      _ ≤ rest.foldl (fun s x => s + (x.quantity : Rat) * x.unitPrice)
            (acc + (it.quantity : Rat) * it.unitPrice) := ih hrest _
      _ = (it :: rest).foldl (fun s x => s + (x.quantity : Rat) * x.unitPrice) acc := by
            simp [List.foldl]

/-- `total = Σ qty·unitPrice` over at least one all-positive item is
positive. -/
theorem total_pos (items : List OrderItem) (hne : 1 ≤ items.length)
    (hpos : ∀ it ∈ items, 0 < it.quantity ∧ 0 < it.unitPrice) :
    0 < items.foldl (fun s it => s + (it.quantity : Rat) * it.unitPrice) 0 := by
  cases items with
  | nil => simp at hne
  | cons it rest =>
    have hterm : ∀ x ∈ it :: rest, 0 < (x.quantity : Rat) * x.unitPrice := by
      intro x hx
      have hf := hpos x hx
      have hq : (0 : Rat) < (x.quantity : Rat) := by
        exact_mod_cast hf.1
      exact mul_pos hq hf.2
    have hrest : ∀ x ∈ rest, 0 < (x.quantity : Rat) * x.unitPrice :=
      fun x hx => hterm x (List.mem_cons_of_mem it hx)
    have hstep := le_foldl_total rest hrest ((0 : Rat) + (it.quantity : Rat) * it.unitPrice)
    have hpos0 : (0 : Rat) < (0 : Rat) + (it.quantity : Rat) * it.unitPrice := by
      have := hterm it (List.mem_cons_self it rest)
      linarith
    calc (0 : Rat) < (0 : Rat) + (it.quantity : Rat) * it.unitPrice := hpos0
      _ ≤ rest.foldl (fun s x => s + (x.quantity : Rat) * x.unitPrice)
            ((0 : Rat) + (it.quantity : Rat) * it.unitPrice) := hstep
      _ = (it :: rest).foldl (fun s x => s + (x.quantity : Rat) * x.unitPrice) 0 := by
            simp [List.foldl]

/-- `findOne` after appending a fresh document returns that document. -/
theorem ordersGetById_append_fresh (pre : List OrderDoc) (d : OrderDoc)
    (oid : String) (hpre : ∀ o ∈ pre, o.orderId ≠ oid) (hd : d.orderId = oid) :
    ordersGetById (pre ++ [d]) oid = some d := by
  induction pre with
  | nil => simp [ordersGetById, List.find?, hd]
  | cons o rest ih =>
    have ho : o.orderId ≠ oid := hpre o (List.mem_cons_self o rest)
    have hrest : ∀ x ∈ rest, x.orderId ≠ oid :=
      fun x hx => hpre x (List.mem_cons_of_mem o hx)
    simpa [ordersGetById, List.find?, ho] using ih hrest

/-- `JS a || b` with an empty-string default is the string itself. -/
theorem jsOrOpt_some_empty (k : String) : jsOrOpt (some k) "" = k := by
  show jsOrStr k "" = k
  unfold jsOrStr
  split_ifs with h
  · exact h.symm
  · rfl

/-- Rows of the store holding an `orders.created` event for `oid`. -/
def countOrdersCreatedFor (events : List EventEnvelope) (oid : String) : Nat :=
  (events.filter (fun r =>
    r.type == "orders.created" && r.payloadOrderId == some oid)).length

end MicroCore

namespace MicroCore

/-- C4: two `POST /orders` with the same non-blank `Idempotency-Key` inside
the TTL window: the first (with fresh ids and a miss in the map) answers
201 PENDING; the second answers 200 with the same orderId, the order's
current status and `idempotent: true`, leaves the whole service state
untouched (no new order row, no append, no publish), and the store holds
exactly one `orders.created` event for that orderId. -/
theorem create_idempotent_replay
    (s0 : OrderState) (env1 env2 : CreateEnv) (body body2 : Json)
    (key : String) (corrHdr1 corrHdr2 : Option String)
    (cid : String) (items : List OrderItem)
    (cid2 : String) (items2 : List OrderItem)
    (hbody : parseCreateOrderBody body = some (cid, items))
    (hbody2 : parseCreateOrderBody body2 = some (cid2, items2))
    (hk : jsTrim key ≠ "")
    (hmiss : s0.idem.lookup (jsTrim key) = none)
    (horders : ∀ o ∈ s0.orders, o.orderId ≠ "ord_" ++ env1.orderUuid.take 8)
    (hevents : ∀ r ∈ s0.events, r.eventId ≠ env1.eventId)
    (hnocreated : countOrdersCreatedFor s0.events
      ("ord_" ++ env1.orderUuid.take 8) = 0)
    (hu : isUuidFormat env1.eventId = true) (hn : 1 ≤ env1.nowIso.length)
    (httl : ¬(env1.nowMs + IDEMP_TTL_MS < env2.nowMs)) :
    (createOrder s0 env1 body (some key) corrHdr1).2 =
      { status := 201, orderId := some ("ord_" ++ env1.orderUuid.take 8),
        orderStatus := some .PENDING } ∧
    (createOrder (createOrder s0 env1 body (some key) corrHdr1).1
        env2 body2 (some key) corrHdr2).2 =
      { status := 200, orderId := some ("ord_" ++ env1.orderUuid.take 8),
        orderStatus := some .PENDING, idempotent := true } ∧
    (createOrder (createOrder s0 env1 body (some key) corrHdr1).1
        env2 body2 (some key) corrHdr2).1 =
      (createOrder s0 env1 body (some key) corrHdr1).1 ∧
    countOrdersCreatedFor
      (createOrder (createOrder s0 env1 body (some key) corrHdr1).1
        env2 body2 (some key) corrHdr2).1.events
      ("ord_" ++ env1.orderUuid.take 8) = 1 := by
  have hkeyEq : jsTrim (jsOrOpt (some key) "") = jsTrim key := by
    rw [jsOrOpt_some_empty]
  obtain ⟨hcidLen, hitemsLen, hitemsFacts⟩ :=
    parseCreateOrderBody_some_facts body cid items hbody
  have hoidLen : 1 ≤ ("ord_" ++ env1.orderUuid.take 8).length := by
    have h := String.length_append "ord_" (env1.orderUuid.take 8)
    have h4 : "ord_".length = 4 := rfl
    omega
  have hcorrLen : 1 ≤ (jsOrOpt corrHdr1 ("corr-" ++ env1.corrUuid)).length :=
    jsOrOpt_len corrHdr1 _ (corrFallback_len env1.corrUuid)
  have hprod : (1 : Nat) ≤ "order-service".length := by decide
  have htotalPos := total_pos items hitemsLen
    (fun it hit => ⟨(hitemsFacts it hit).2.1, (hitemsFacts it hit).2.2⟩)
  have hOk := parseOrdersCreated_encode
    { eventId := env1.eventId, occurredAt := env1.nowIso,
      producer := "order-service",
      correlationId := jsOrOpt corrHdr1 ("corr-" ++ env1.corrUuid) }
    { orderId := "ord_" ++ env1.orderUuid.take 8, customerId := cid,
      items := items,
      total := items.foldl (fun sum it => sum + (it.quantity : Rat) * it.unitPrice) 0 }
    hu hn hprod hcorrLen hoidLen hcidLen hitemsLen htotalPos hitemsFacts
  simp only [OrdersCreatedMsg.toEnvelope] at hOk
  have hfind : List.find?
      (fun o => o.orderId = "ord_" ++ env1.orderUuid.take 8) s0.orders = none :=
    List.find?_eq_none.mpr (fun o ho => by simpa using horders o ho)
  have happend := eventsAppend_fresh s0.events
    { eventId := env1.eventId, type := "orders.created", version := 1,
      occurredAt := env1.nowIso, producer := "order-service",
      correlationId := jsOrOpt corrHdr1 ("corr-" ++ env1.corrUuid),
      payload := encodeCreatedPayload
        { orderId := "ord_" ++ env1.orderUuid.take 8, customerId := cid,
          items := items,
          total := items.foldl (fun sum it => sum + (it.quantity : Rat) * it.unitPrice) 0 } }
    hevents
  have hr1 : (createOrder s0 env1 body (some key) corrHdr1).2 =
      { status := 201, orderId := some ("ord_" ++ env1.orderUuid.take 8),
        orderStatus := some .PENDING } := by
    simp [createOrder, hbody, hkeyEq, hk, getIdemp, hmiss, ordersCreate,
          hfind, hOk, happend]
  have hidem1 : (createOrder s0 env1 body (some key) corrHdr1).1.idem =
      (jsTrim key,
        { orderId := "ord_" ++ env1.orderUuid.take 8,
          expiresAt := env1.nowMs + IDEMP_TTL_MS }) ::
        s0.idem.filter (fun p => p.1 ≠ jsTrim key) := by
    simp [createOrder, hbody, hkeyEq, hk, getIdemp, hmiss, ordersCreate,
          hfind, hOk, happend, setIdemp]
  have horders1 : (createOrder s0 env1 body (some key) corrHdr1).1.orders =
      s0.orders ++
        [{ orderId := "ord_" ++ env1.orderUuid.take 8, customerId := cid,
           items := items,
           total := items.foldl (fun sum it => sum + (it.quantity : Rat) * it.unitPrice) 0,
           status := .PENDING, createdAt := env1.nowIso,
           updatedAt := env1.nowIso }] := by
    simp [createOrder, hbody, hkeyEq, hk, getIdemp, hmiss, ordersCreate,
          hfind, hOk, happend]
  have hevents1 : (createOrder s0 env1 body (some key) corrHdr1).1.events =
      s0.events ++
        [{ eventId := env1.eventId, type := "orders.created", version := 1,
           occurredAt := env1.nowIso, producer := "order-service",
           correlationId := jsOrOpt corrHdr1 ("corr-" ++ env1.corrUuid),
           payload := encodeCreatedPayload
             { orderId := "ord_" ++ env1.orderUuid.take 8, customerId := cid,
               items := items,
               total := items.foldl (fun sum it => sum + (it.quantity : Rat) * it.unitPrice) 0 } }] := by
    simp [createOrder, hbody, hkeyEq, hk, getIdemp, hmiss, ordersCreate,
          hfind, hOk, happend]
  obtain ⟨s1, hs1⟩ : ∃ t, (createOrder s0 env1 body (some key) corrHdr1).1 = t :=
    ⟨_, rfl⟩
  rw [hs1] at hidem1 horders1 hevents1
  have hlook2 : s1.idem.lookup (jsTrim key) =
      some { orderId := "ord_" ++ env1.orderUuid.take 8,
             expiresAt := env1.nowMs + IDEMP_TTL_MS } := by
    rw [hidem1]
    simp [List.lookup]
  have hget2 : getIdemp s1.idem (jsTrim key) env2.nowMs =
      (some ("ord_" ++ env1.orderUuid.take 8), s1.idem) := by
    simp [getIdemp, hlook2, httl]
  have hgetById : ordersGetById s1.orders ("ord_" ++ env1.orderUuid.take 8) =
      some { orderId := "ord_" ++ env1.orderUuid.take 8, customerId := cid,
             items := items,
             total := items.foldl (fun sum it => sum + (it.quantity : Rat) * it.unitPrice) 0,
             status := .PENDING, createdAt := env1.nowIso,
             updatedAt := env1.nowIso } := by
    rw [horders1]
    exact ordersGetById_append_fresh s0.orders _ _ horders rfl
  have hr2 : (createOrder s1 env2 body2 (some key) corrHdr2).2 =
      { status := 200, orderId := some ("ord_" ++ env1.orderUuid.take 8),
        orderStatus := some .PENDING, idempotent := true } := by
    simp [createOrder, hbody2, hkeyEq, hk, hget2, hgetById]
  have hs2 : (createOrder s1 env2 body2 (some key) corrHdr2).1 = s1 := by
    simp [createOrder, hbody2, hkeyEq, hk, hget2]
  refine ⟨hr1, ?_, ?_, ?_⟩
  · rw [hs1]
    exact hr2
  · rw [hs1, hs2]
  · rw [hs1, hs2, hevents1]
    simp only [countOrdersCreatedFor, List.filter_append, List.length_append]
    have hone : (List.filter (fun r : EventEnvelope =>
        r.type == "orders.created" &&
        r.payloadOrderId == some ("ord_" ++ env1.orderUuid.take 8))
        [{ eventId := env1.eventId, type := "orders.created", version := 1,
           occurredAt := env1.nowIso, producer := "order-service",
           correlationId := jsOrOpt corrHdr1 ("corr-" ++ env1.corrUuid),
           payload := encodeCreatedPayload
             { orderId := "ord_" ++ env1.orderUuid.take 8, customerId := cid,
               items := items,
               total := items.foldl (fun sum it => sum + (it.quantity : Rat) * it.unitPrice) 0 } }]).length = 1 := by
      simp [List.filter, EventEnvelope.payloadOrderId, encodeCreatedPayload,
            Json.getField, Json.asString, List.lookup]
    rw [hone]
    have hzero : (List.filter (fun r : EventEnvelope =>
        r.type == "orders.created" &&
        r.payloadOrderId == some ("ord_" ++ env1.orderUuid.take 8))
        s0.events).length = 0 := hnocreated
    omega

end MicroCore

namespace MicroCore

def createEnv1W : CreateEnv :=
  { orderUuid := "ab12cd34-5678", eventId := "00000000-0000-0000-0000-000000000011",
    nowIso := "2025-08-09T00:00:10Z", nowMs := 1000, corrUuid := "u1" }

def createEnv2W : CreateEnv :=
  { orderUuid := "ef56ab78-9abc", eventId := "00000000-0000-0000-0000-000000000012",
    nowIso := "2025-08-09T00:00:20Z", nowMs := 2000, corrUuid := "u2" }

/-- A concrete valid `POST /orders` body. -/
def createBodyW : Json :=
  Json.obj [("customerId", Json.str "cust_1"),
            ("items",
              Json.arr [Json.obj [("productId", Json.str "p1"),
                                  ("quantity", Json.num 2),
                                  ("unitPrice", Json.num 100)]])]

/-- C4 witness: the two concrete calls with `Idempotency-Key: idem-123`. -/
theorem create_idempotent_witness :
    (createOrder orderStateW createEnv1W createBodyW (some "idem-123") none).2 =
      { status := 201,
        orderId := some ("ord_" ++ createEnv1W.orderUuid.take 8),
        orderStatus := some .PENDING } ∧
    (createOrder (createOrder orderStateW createEnv1W createBodyW (some "idem-123") none).1
        createEnv2W createBodyW (some "idem-123") none).2 =
      { status := 200,
        orderId := some ("ord_" ++ createEnv1W.orderUuid.take 8),
        orderStatus := some .PENDING, idempotent := true } ∧
    (createOrder (createOrder orderStateW createEnv1W createBodyW (some "idem-123") none).1
        createEnv2W createBodyW (some "idem-123") none).1 =
      (createOrder orderStateW createEnv1W createBodyW (some "idem-123") none).1 ∧
    countOrdersCreatedFor
      (createOrder (createOrder orderStateW createEnv1W createBodyW (some "idem-123") none).1
        createEnv2W createBodyW (some "idem-123") none).1.events
      ("ord_" ++ createEnv1W.orderUuid.take 8) = 1 :=
  create_idempotent_replay orderStateW createEnv1W createEnv2W
    createBodyW createBodyW "idem-123" none none
    "cust_1" [{ productId := "p1", quantity := 2, unitPrice := 100 }]
    "cust_1" [{ productId := "p1", quantity := 2, unitPrice := 100 }]
    (by decide) (by decide) (by decide) rfl
    (by simp [orderStateW]) (by simp [orderStateW]) rfl
    (by decide) (by decide) (by decide)

end MicroCore

namespace MicroCore

/-- Inverting a successful `OrdersCancelledV1Schema` parse. -/
theorem parseOrdersCancelledV1_some_facts (j : Json) (m : OrdersCancelledMsg)
    (h : parseOrdersCancelledV1 j = some m) :
    isUuidFormat m.base.eventId = true ∧ 1 ≤ m.base.occurredAt.length ∧
    1 ≤ m.base.producer.length ∧ 1 ≤ m.base.correlationId.length ∧
    1 ≤ m.payload.orderId.length ∧ 1 ≤ m.payload.reason.length := by
  unfold parseOrdersCancelledV1 at h
  split at h
  · next base p hbase hp =>
    split at h
    · next oid reason hoid hreason =>
      split_ifs at h with hc
      injection h with h
      subst h
      simp only [Bool.and_eq_true, decide_eq_true_eq] at hc
      have hbaseFacts := parseBase_some_facts j "orders.cancelled" base hbase
      exact ⟨hbaseFacts.1, hbaseFacts.2.1, hbaseFacts.2.2.1, hbaseFacts.2.2.2,
             hc.1, hc.2⟩
    · exact Option.noConfusion h
  · exact Option.noConfusion h

/-- Index of the first broker publish of a `notification.sent` envelope in a
notification handler trace. -/
def notifPublishIdx (acts : List NotifAction) : Option Nat :=
  acts.findIdx? (fun a =>
    match a with
    | .publishN p =>
      match p.body with
      | .env e => e.type == "notification.sent"
      | _ => false
    | _ => false)

/-- Index of the first event-store append of a `notification.sent` envelope
in a notification handler trace. -/
def notifAppendIdx (acts : List NotifAction) : Option Nat :=
  acts.findIdx? (fun a =>
    match a with
    | .appendN e => e.type == "notification.sent"
    | _ => false)

def notifEnvW : NotifEnv :=
  { eventId := "00000000-0000-0000-0000-000000000021",
    nowIso := "2025-08-09T00:00:30Z", pubCorrUuid := "pu", hCorrUuid := "hu" }

/-- C8 counterexample: on the concrete valid `orders.created` delivery the
notification handler publishes the `notification.sent` envelope at trace
position 1 and only appends it at position 2 — the append does **not**
precede the publish, contradicting validate-append-then-publish. -/
theorem notification_append_before_publish_counterexample :
    notifPublishIdx
      (notifCreatedHandler notifEnvW "notification-service" none [] createdJsonW).acts
      = some 1 ∧
    notifAppendIdx
      (notifCreatedHandler notifEnvW "notification-service" none [] createdJsonW).acts
      = some 2 ∧
    ¬ (∃ i j : Nat,
        notifAppendIdx
          (notifCreatedHandler notifEnvW "notification-service" none [] createdJsonW).acts
          = some i ∧
        notifPublishIdx
          (notifCreatedHandler notifEnvW "notification-service" none [] createdJsonW).acts
          = some j ∧ i < j) := by
  refine ⟨by decide, by decide, ?_⟩
  rintro ⟨i, j, hi, hj, hij⟩
  have hi2 : i = 2 := by
    have h2 : notifAppendIdx
        (notifCreatedHandler notifEnvW "notification-service" none [] createdJsonW).acts
        = some 2 := by decide
    rw [h2] at hi
    exact (Option.some.injEq _ _).mp hi.symm
  have hj1 : j = 1 := by
    have h1 : notifPublishIdx
        (notifCreatedHandler notifEnvW "notification-service" none [] createdJsonW).acts
        = some 1 := by decide
    rw [h1] at hj
    exact (Option.some.injEq _ _).mp hj.symm
  omega

end MicroCore

namespace MicroCore

/-- The exact trace a notification consumer produces on a valid event:
append the incoming event, publish the constructed `notification.sent`
envelope (mapped kind, `channel = "log"`) to the `notifications` exchange
with routing key `notification.sent.v1`, and only then append it; no
schema-validation step occurs anywhere in the trace. -/
def expectedNotifTrace (env : NotifEnv) (serviceName : String)
    (incoming : EventEnvelope) (corrId kind orderId : String) :
    List NotifAction :=
  [.appendN incoming,
   .publishN
     { exchange := "notifications", routingKey := "notification.sent.v1",
       body := .env
         { eventId := env.eventId, type := "notification.sent", version := 1,
           occurredAt := env.nowIso, producer := serviceName,
           correlationId := corrId,
           payload := Json.obj [("orderId", Json.str orderId),
                                ("kind", Json.str kind),
                                ("channel", Json.str "log")] },
       headers := { xCorrelation := some corrId, xGroup := some orderId } },
   .appendN
     { eventId := env.eventId, type := "notification.sent", version := 1,
       occurredAt := env.nowIso, producer := serviceName,
       correlationId := corrId,
       payload := Json.obj [("orderId", Json.str orderId),
                            ("kind", Json.str kind),
                            ("channel", Json.str "log")] }]

/-- C8 amended: on every schema-valid consumed event each notification
consumer acks and produces exactly the trace `append incoming; publish the
notification.sent envelope with the mapped kind
(orders.created → order_created, inventory.reserve.approved →
order_confirmed, inventory.reserve.rejected → order_rejected,
orders.cancelled → order_cancelled) and channel "log"; append it` — the
publish precedes the append of the outgoing envelope, and no validation of
the outgoing envelope is performed. -/
theorem notification_consumers_trace
    (env : NotifEnv) (serviceName : String) (hdrCorr : Option String)
    (store : List EventEnvelope) (j : Json) :
    (∀ evt, parseOrdersCreatedV1 j = some evt →
      (notifCreatedHandler env serviceName hdrCorr store j).decision = .ack ∧
      (notifCreatedHandler env serviceName hdrCorr store j).acts =
        expectedNotifTrace env serviceName evt.toEnvelope
          evt.base.correlationId "order_created" evt.payload.orderId) ∧
    (∀ evt, parseInvApprovedV1 j = some evt →
      (notifApprovedHandler env serviceName hdrCorr store j).decision = .ack ∧
      (notifApprovedHandler env serviceName hdrCorr store j).acts =
        expectedNotifTrace env serviceName evt.toEnvelope
          evt.base.correlationId "order_confirmed" evt.payload.orderId) ∧
    (∀ evt, parseInvRejectedV1 j = some evt →
      (notifRejectedHandler env serviceName hdrCorr store j).decision = .ack ∧
      (notifRejectedHandler env serviceName hdrCorr store j).acts =
        expectedNotifTrace env serviceName evt.toEnvelope
          evt.base.correlationId "order_rejected" evt.payload.orderId) ∧
    (∀ evt, parseOrdersCancelledV1 j = some evt →
      (notifCancelledHandler env serviceName hdrCorr store j).decision = .ack ∧
      (notifCancelledHandler env serviceName hdrCorr store j).acts =
        expectedNotifTrace env serviceName evt.toEnvelope
          evt.base.correlationId "order_cancelled" evt.payload.orderId) := by
  refine ⟨?_, ?_, ?_, ?_⟩
  · intro evt hj
    have hCorr := (parseOrdersCreatedV1_some_facts j evt hj).2.2.2.1
    have h1 := jsOrStr_of_len evt.base.correlationId
      (jsOrOpt hdrCorr ("corr-" ++ env.hCorrUuid)) hCorr
    have h2 := jsOrStr_of_len evt.base.correlationId
      ("corr-" ++ env.pubCorrUuid) hCorr
    simp only [jsOrOpt] at h1
    constructor
    · simp [notifCreatedHandler, hj, publishNotificationRun]
    · simp [notifCreatedHandler, hj, publishNotificationRun, jsOrOpt, h1, h2,
            expectedNotifTrace]
  · intro evt hj
    have hCorr := (parseInvApprovedV1_some_facts j evt hj).2.2.2.1
    have h1 := jsOrStr_of_len evt.base.correlationId
      (jsOrOpt hdrCorr ("corr-" ++ env.hCorrUuid)) hCorr
    have h2 := jsOrStr_of_len evt.base.correlationId
      ("corr-" ++ env.pubCorrUuid) hCorr
    simp only [jsOrOpt] at h1
    constructor
    · simp [notifApprovedHandler, hj, publishNotificationRun]
    · simp [notifApprovedHandler, hj, publishNotificationRun, jsOrOpt, h1, h2,
            expectedNotifTrace]
  · intro evt hj
    have hCorr := (parseInvRejectedV1_some_facts j evt hj).2.2.2.1
    have h1 := jsOrStr_of_len evt.base.correlationId
      (jsOrOpt hdrCorr ("corr-" ++ env.hCorrUuid)) hCorr
    have h2 := jsOrStr_of_len evt.base.correlationId
      ("corr-" ++ env.pubCorrUuid) hCorr
    simp only [jsOrOpt] at h1
    constructor
    · simp [notifRejectedHandler, hj, publishNotificationRun]
    · simp [notifRejectedHandler, hj, publishNotificationRun, jsOrOpt, h1, h2,
            expectedNotifTrace]
  · intro evt hj
    have hCorr := (parseOrdersCancelledV1_some_facts j evt hj).2.2.2.1
    have h1 := jsOrStr_of_len evt.base.correlationId
      (jsOrOpt hdrCorr ("corr-" ++ env.hCorrUuid)) hCorr
    have h2 := jsOrStr_of_len evt.base.correlationId
      ("corr-" ++ env.pubCorrUuid) hCorr
    simp only [jsOrOpt] at h1
    constructor
    · simp [notifCancelledHandler, hj, publishNotificationRun]
    · simp [notifCancelledHandler, hj, publishNotificationRun, jsOrOpt, h1, h2,
            expectedNotifTrace]

/-- C8 amended witness: the concrete `orders.created` delivery yields the
`order_created` trace. -/
theorem notification_consumers_trace_witness :
    (notifCreatedHandler notifEnvW "notification-service" none [] createdJsonW).decision = .ack ∧
    (notifCreatedHandler notifEnvW "notification-service" none [] createdJsonW).acts =
      expectedNotifTrace notifEnvW "notification-service"
        createdMsgW.toEnvelope createdMsgW.base.correlationId
        "order_created" createdMsgW.payload.orderId :=
  (notification_consumers_trace notifEnvW "notification-service" none []
    createdJsonW).1 createdMsgW (by decide)

end MicroCore

namespace MicroCore

/-- The cursor order is total. -/
theorem occEventLe_total (e1 e2 : EventEnvelope) :
    occEventLe e1 e2 || occEventLe e2 e1 := by
  unfold occEventLe
  rcases lt_trichotomy e1.occurredAt e2.occurredAt with h | h | h
  · simp [h]
  · rcases le_total e1.eventId e2.eventId with h2 | h2
    · simp [h, h2]
    · simp [h, h2]
  · simp [h]

/-- The cursor order is transitive. -/
theorem occEventLe_trans (a b c : EventEnvelope) :
    occEventLe a b → occEventLe b c → occEventLe a c := by
  unfold occEventLe
  intro hab hbc
  simp only [Bool.or_eq_true, Bool.and_eq_true, decide_eq_true_eq] at hab hbc ⊢
  rcases hab with hab | ⟨hab1, hab2⟩
  · rcases hbc with hbc | ⟨hbc1, hbc2⟩
    · exact Or.inl (lt_trans hab hbc)
    · exact Or.inl (hbc1 ▸ hab)
  · rcases hbc with hbc | ⟨hbc1, hbc2⟩
    · exact Or.inl (hab1 ▸ hbc)
    · exact Or.inr ⟨hab1.trans hbc1, le_trans hab2 hbc2⟩

/-- Unfolding the replay fold: the accumulated publishes and warnings are
the two filterMaps of the per-event step. -/
theorem replayFold_spec (evs : List EventEnvelope) :
    ∀ accP accW,
      evs.foldl replayFoldStep (accP, accW) =
        (accP ++ evs.filterMap (fun e => (replayEventStep e).1),
         accW ++ evs.filterMap (fun e => (replayEventStep e).2)) := by
  induction evs with
  | nil => intro accP accW; simp
  | cons e rest ih =>
    intro accP accW
    unfold replayEventStep
    rcases hroute : routingFor e.type (if e.version = 0 then 1 else e.version) with
      _ | route
    · have hstep : replayFoldStep (accP, accW) e =
          (accP, accW ++ ["[Replay] unknown event type, skipping: " ++ e.type]) := by
        simp [replayFoldStep, replayEventStep, hroute]
      simp only [List.foldl_cons, hstep, ih]
      simp [replayEventStep, hroute]
    · have hstep : replayFoldStep (accP, accW) e =
          (accP ++ [{ exchange := route.1, routingKey := route.2,
                      body := .env e,
                      headers := { xReplay := some true,
                                   xCorrelation := some e.correlationId,
                                   xGroup := e.payloadOrderId } }], accW) := by
        simp [replayFoldStep, replayEventStep, hroute]
      simp only [List.foldl_cons, hstep, ih]
      simp [replayEventStep, hroute]

/-- Inverting one publish of the replay loop. -/
theorem replayEventStep_publish (e : EventEnvelope) (p : PublishAction)
    (h : (replayEventStep e).1 = some p) :
    p.body = .env e ∧
    p.headers = { xAttempt := none, xReplay := some true,
                  xCorrelation := some e.correlationId,
                  xGroup := e.payloadOrderId } ∧
    routingFor e.type (if e.version = 0 then 1 else e.version) =
      some (p.exchange, p.routingKey) := by
  unfold replayEventStep at h
  rcases hroute : routingFor e.type (if e.version = 0 then 1 else e.version) with
    _ | route
  · rw [hroute] at h
    exact Option.noConfusion h
  · rw [hroute] at h
    injection h with h
    subst h
    exact ⟨rfl, rfl, rfl⟩

/-- Extracting the envelopes back out of the published replay messages
yields exactly the routable events, in order. -/
theorem replay_publishes_envelopes (evs : List EventEnvelope) :
    (evs.filterMap (fun e => (replayEventStep e).1)).filterMap
      (fun p => match p.body with | .env e => some e | _ => none) =
      evs.filter (fun e =>
        (routingFor e.type (if e.version = 0 then 1 else e.version)).isSome) := by
  induction evs with
  | nil => rfl
  | cons e rest ih =>
    rcases hroute : routingFor e.type (if e.version = 0 then 1 else e.version) with
      _ | route
    · have hp : (replayEventStep e).1 = none := by
        simp [replayEventStep, hroute]
      simp only [List.filterMap_cons, hp, List.filter_cons, hroute]
      simpa using ih
    · have hp : (replayEventStep e).1 =
          some { exchange := route.1, routingKey := route.2,
                 body := .env e,
                 headers := { xReplay := some true,
                              xCorrelation := some e.correlationId,
                              xGroup := e.payloadOrderId } } := by
        simp [replayEventStep, hroute]
      simp only [List.filterMap_cons, hp, List.filter_cons, hroute]
      simpa using ih

/-- One warning per skipped (unroutable) event. -/
theorem replay_warning_count (evs : List EventEnvelope) :
    (evs.filterMap (fun e => (replayEventStep e).2)).length =
      (evs.filter (fun e =>
        (routingFor e.type (if e.version = 0 then 1 else e.version)).isNone)).length := by
  induction evs with
  | nil => rfl
  | cons e rest ih =>
    rcases hroute : routingFor e.type (if e.version = 0 then 1 else e.version) with
      _ | route
    · have hw : (replayEventStep e).2 =
          some ("[Replay] unknown event type, skipping: " ++ e.type) := by
        simp [replayEventStep, hroute]
      simp only [List.filterMap_cons, hw, List.filter_cons, hroute]
      simpa using ih
    · have hw : (replayEventStep e).2 = none := by
        simp [replayEventStep, hroute]
      simp only [List.filterMap_cons, hw, List.filter_cons, hroute]
      simpa using ih

end MicroCore

namespace MicroCore

/-- C9: one replay run (i) leaves the event store untouched, (ii) publishes
exactly the filtered events in `(occurredAt ASC, eventId ASC)` cursor
order, (iii) each published message carries the stored envelope with
headers `x-replay = true`, `x-correlation-id` = the envelope's
correlationId and `x-group-id` = `payload.orderId`, routed by the static
`routingFor` table, (iv) the published envelopes are pairwise in ascending
cursor order, and (v) exactly one warning is logged per matching event
whose type is unknown to the table (those events are skipped). -/
theorem replay_tool_spec (store : List EventEnvelope) (a : ReplayArgs) :
    (replayRun store a).2.2 = store ∧
    (replayRun store a).1 =
      ((store.filter (matchesReplayQuery a)).mergeSort occEventLe).filterMap
        (fun e => (replayEventStep e).1) ∧
    (∀ p ∈ (replayRun store a).1, ∃ e : EventEnvelope,
      e ∈ store ∧ matchesReplayQuery a e = true ∧
      p.body = .env e ∧
      p.headers = { xAttempt := none, xReplay := some true,
                    xCorrelation := some e.correlationId,
                    xGroup := e.payloadOrderId } ∧
      routingFor e.type (if e.version = 0 then 1 else e.version) =
        some (p.exchange, p.routingKey)) ∧
    List.Pairwise (fun e1 e2 => occEventLe e1 e2 = true)
      ((replayRun store a).1.filterMap
        (fun p => match p.body with | .env e => some e | _ => none)) ∧
    (replayRun store a).2.1.length =
      ((store.filter (matchesReplayQuery a)).filter
        (fun e => (routingFor e.type (if e.version = 0 then 1 else e.version)).isNone)).length := by
  have hfold := replayFold_spec
    ((store.filter (matchesReplayQuery a)).mergeSort occEventLe) [] []
  have hpub : (replayRun store a).1 =
      ((store.filter (matchesReplayQuery a)).mergeSort occEventLe).filterMap
        (fun e => (replayEventStep e).1) := by
    simp [replayRun, hfold]
  have hwarn : (replayRun store a).2.1 =
      ((store.filter (matchesReplayQuery a)).mergeSort occEventLe).filterMap
        (fun e => (replayEventStep e).2) := by
    simp [replayRun, hfold]
  refine ⟨rfl, hpub, ?_, ?_, ?_⟩
  · intro p hp
    rw [hpub] at hp
    obtain ⟨e, he, hstep⟩ := List.mem_filterMap.mp hp
    have hmem : e ∈ store.filter (matchesReplayQuery a) :=
      (List.mergeSort_perm (store.filter (matchesReplayQuery a)) occEventLe).subset he
    obtain ⟨hstore, hmatch⟩ := List.mem_filter.mp hmem
    obtain ⟨hbody, hheaders, hroute⟩ := replayEventStep_publish e p hstep
    exact ⟨e, hstore, hmatch, hbody, hheaders, hroute⟩
  · rw [hpub, replay_publishes_envelopes]
    exact List.Pairwise.sublist (List.filter_sublist _)
      (List.sorted_mergeSort occEventLe_trans occEventLe_total _)
  · rw [hwarn, replay_warning_count]
    have hperm := List.mergeSort_perm (store.filter (matchesReplayQuery a)) occEventLe
    exact (hperm.filter _).length_eq

def replayArgsW : ReplayArgs := {}

/-- A concrete two-event store: one routable `orders.created`, one unknown
type. -/
def replayStoreW : List EventEnvelope :=
  [{ eventId := "00000000-0000-0000-0000-000000000031",
     type := "orders.created", version := 1,
     occurredAt := "2025-08-09T00:00:40Z", producer := "order-service",
     correlationId := "corr-9",
     payload := Json.obj [("orderId", Json.str "ord_12ab")] },
   { eventId := "00000000-0000-0000-0000-000000000032",
     type := "mystery.event", version := 1,
     occurredAt := "2025-08-09T00:00:41Z", producer := "order-service",
     correlationId := "corr-9",
     payload := Json.obj [("orderId", Json.str "ord_12ab")] }]

/-- C9 witness: the concrete replay run leaves the store unchanged and
publishes exactly the routable matching events in cursor order. -/
theorem replay_tool_witness :
    (replayRun replayStoreW replayArgsW).2.2 = replayStoreW ∧
    (replayRun replayStoreW replayArgsW).1 =
      ((replayStoreW.filter (matchesReplayQuery replayArgsW)).mergeSort
        occEventLe).filterMap (fun e => (replayEventStep e).1) :=
  have h := replay_tool_spec replayStoreW replayArgsW
  ⟨h.1, h.2.1⟩

end MicroCore
